import Mathlib

/-!
Verification of the intent-testing core (scripts/compare_runs.py,
scripts/collectors.py, scripts/judge_intent.py, scripts/intent/manifest.py)
against its natural-language specification.

The Python code manipulates JSON-shaped data (parsed with `json.loads`).
We embed JSON values as the inductive type `JValue`, Python truthiness as
`JValue.truthy`, and the relevant functions of the four modules as Lean
functions over `JValue`.  The filesystem (files read through
`json.loads(path.read_text())`) is modelled as a lookup function from path
strings to parsed values.  Python's `re` module is external; compiled
patterns are modelled as abstract match functions (`RePat`), with a concrete
executable matcher for the single pattern `hg:[a-z]+` used by the spec's
worked example.
-/

/-- A JSON value, as produced by Python's `json.loads`.
Objects are association lists in insertion order (Python dicts preserve
insertion order; keys produced by `json.loads` are unique). -/
inductive JValue where
  | null
  | bool (b : Bool)
  | num (n : Int)
  | str (s : String)
  | arr (xs : List JValue)
  | obj (fields : List (String × JValue))

/-- Python truthiness of a JSON value: `None`, `False`, `0`, `""`, `[]`, `{}`
are falsy, everything else truthy. -/
def JValue.truthy : JValue → Bool
  | .null => false
  | .bool b => b
  | .num n => n != 0
  | .str s => s ≠ ""
  | .arr xs => !xs.isEmpty
  | .obj fs => !fs.isEmpty

/-- Is the value a JSON object (`isinstance(v, dict)`)? -/
def JValue.isObj : JValue → Bool
  | .obj _ => true
  | _ => false

/-- Is the value a JSON array (`isinstance(v, list)`)? -/
def JValue.isArr : JValue → Bool
  | .arr _ => true
  | _ => false

/-- Is the value a JSON string (`isinstance(v, str)`)? -/
def JValue.isStr : JValue → Bool
  | .str _ => true
  | _ => false

/-- First value stored under key `k`, if the value is an object holding `k`.
On objects produced by `json.loads` keys are unique, so first-match lookup
agrees with Python dict lookup. -/
def JValue.find? (v : JValue) (k : String) : Option JValue :=
  match v with
  | .obj fs => lookupField fs k
  | _ => none
where
  lookupField : List (String × JValue) → String → Option JValue
    | [], _ => none
    | (k', w) :: rest, k => if k' = k then some w else lookupField rest k

/-- Python `v.get(k)`: the stored value, or `None` when the key is absent.
(Python's `.get` conflates an absent key with a stored `null`; so does this
model, returning `JValue.null` in both cases.) -/
def JValue.pyGet (v : JValue) (k : String) : JValue :=
  (v.find? k).getD .null

/-- Python `v.get(k, d)`: the stored value (even `None`), or `d` when the key
is absent. -/
def JValue.pyGetD (v : JValue) (k : String) (d : JValue) : JValue :=
  (v.find? k).getD d

/-- Python `k in v` for a dict `v`. -/
def JValue.hasKey (v : JValue) (k : String) : Bool :=
  (v.find? k).isSome

/-- Truthiness of an `Option JValue` under the convention that `none` stands
for Python `None`. -/
def optTruthy : Option JValue → Bool
  | none => false
  | some v => v.truthy

/-- Truthiness of an `Option String` (Python: `None` and `""` are falsy). -/
def strOptTruthy : Option String → Bool
  | none => false
  | some s => s ≠ ""

/-- The string stored in `v`, or `""` when `v` is not a string.  Models the
idiom `x or ""` applied to fields that are strings or absent in every
evidence file the code writes. -/
def JValue.strOrEmpty : JValue → String
  | .str s => s
  | _ => ""

/-! ### Python `==` on JSON values

Python compares parsed JSON values structurally; dict comparison ignores key
order.  `jeqF` is a fuel-indexed executable model (the fuel is only a
termination device; `jeq` supplies a fuel that dominates the recursion
depth).  Deviation, irrelevant to the claims: Python's cross-type numeric
equalities (`True == 1`) are not modelled. -/
/-- One inclusion of Python dict equality: every field of `fs` is matched by
an equal field of `gs`. -/
def inclFieldsF (eq : JValue → JValue → Bool) (fs gs : List (String × JValue)) : Bool :=
  fs.all fun p =>
    match JValue.find?.lookupField gs p.1 with
    | some w => eq p.2 w
    | none => false

/-- Fuel-indexed Python `==` on JSON values. -/
def jeqF : Nat → JValue → JValue → Bool
  | 0, _, _ => false
  | _ + 1, .null, .null => true
  | _ + 1, .bool a, .bool b => a == b
  | _ + 1, .num a, .num b => a == b
  | _ + 1, .str a, .str b => a == b
  | f + 1, .arr xs, .arr ys =>
    xs.length == ys.length && (xs.zip ys).all fun p => jeqF f p.1 p.2
  | f + 1, .obj fs, .obj gs => inclFieldsF (jeqF f) fs gs && inclFieldsF (jeqF f) gs fs
  | _ + 1, _, _ => false

mutual

/-- Structural size of a JSON value; used only to supply enough fuel to the
fuel-indexed functions below. -/
def jsize : JValue → Nat
  | .null => 1
  | .bool _ => 1
  | .num _ => 1
  | .str _ => 1
  | .arr xs => 1 + jsizeList xs
  | .obj fs => 1 + jsizeFields fs

def jsizeList : List JValue → Nat
  | [] => 0
  | x :: xs => 1 + jsize x + jsizeList xs

def jsizeFields : List (String × JValue) → Nat
  | [] => 0
  | (_, v) :: fs => 1 + jsize v + jsizeFields fs

end

/-- Python `==` on JSON values. -/
def jeq (v w : JValue) : Bool := jeqF (jsize v + jsize w) v w

/-- Well-formedness of a parsed JSON value: object keys are unique at every
level, as is guaranteed for any value produced by Python's `json.loads`. -/
inductive NodupKeys : JValue → Prop where
  | null : NodupKeys .null
  | bool (b : Bool) : NodupKeys (.bool b)
  | num (n : Int) : NodupKeys (.num n)
  | str (s : String) : NodupKeys (.str s)
  | arr {xs : List JValue} : (∀ x ∈ xs, NodupKeys x) → NodupKeys (.arr xs)
  | obj {fs : List (String × JValue)} :
      (fs.map Prod.fst).Nodup → (∀ p ∈ fs, NodupKeys p.2) → NodupKeys (.obj fs)

/-- Strict lexicographic order on character lists (Python `<` on strings). -/
def charListLt : List Char → List Char → Bool
  | _, [] => false
  | [], _ :: _ => true
  | a :: as, b :: bs =>
    decide (a.toNat < b.toNat) || (decide (a.toNat = b.toNat) && charListLt as bs)

/-- Python `<` on strings. -/
def pyStrLt (a b : String) : Bool := charListLt a.data b.data

/-- Python `<=` on strings (total order: `a <= b` iff `¬(b < a)`). -/
def pyStrLe (a b : String) : Bool := !(pyStrLt b a)

/-! ### Python's stable sort

`pySorted le` models Python's `sorted` / `list.sort`: the result is ordered
by `le` and stable (elements whose keys compare equal keep their original
relative order).  It is implemented as stable insertion sort: each element is
inserted after every already-placed element that compares `le` to it. -/
/-- Insert `x` after all leading elements `y` with `le y x`. -/
def insertLe (le : α → α → Bool) (x : α) : List α → List α
  | [] => [x]
  | y :: ys => if le y x then y :: insertLe le x ys else x :: y :: ys

/-- Python's stable `sorted`. -/
def pySorted (le : α → α → Bool) (l : List α) : List α :=
  l.foldl (fun acc x => insertLe le x acc) []

/-! ### Python `str()` and `json.dumps` on JSON values

`pyStr` models `str(v)` for parsed JSON values (scalars are exact; container
rendering follows Python `repr` except that quote escaping inside strings is
not modelled — no claim depends on it).  `jdump` models
`json.dumps(v, sort_keys=True)` with the default separators; the `\uXXXX`
escaping of non-ASCII characters is not modelled (no claim depends on it). -/
def pyReprF : Nat → JValue → String
  | 0, _ => ""
  | _ + 1, .null => "None"
  | _ + 1, .bool true => "True"
  | _ + 1, .bool false => "False"
  | _ + 1, .num n => toString n
  | _ + 1, .str s => "'" ++ s ++ "'"
  | f + 1, .arr xs => "[" ++ String.intercalate ", " (xs.map (pyReprF f)) ++ "]"
  | f + 1, .obj fs =>
    "\x7b" ++ String.intercalate ", "
      (fs.map fun p => "'" ++ p.1 ++ "': " ++ pyReprF f p.2) ++ "\x7d"

/-- Python `str(v)` on a parsed JSON value. -/
def pyStr : JValue → String
  | .null => "None"
  | .bool true => "True"
  | .bool false => "False"
  | .num n => toString n
  | .str s => s
  | v => pyReprF (jsize v) v

def jsonEscapeChar (c : Char) : String :=
  if c = '"' then "\\\""
  else if c = '\\' then "\\\\"
  else if c = '\n' then "\\n"
  else if c = '\t' then "\\t"
  else if c = '\r' then "\\r"
  else String.mk [c]

def jsonQuote (s : String) : String :=
  "\"" ++ String.join (s.data.map jsonEscapeChar) ++ "\""

def jdumpF : Nat → JValue → String
  | 0, _ => ""
  | _ + 1, .null => "null"
  | _ + 1, .bool true => "true"
  | _ + 1, .bool false => "false"
  | _ + 1, .num n => toString n
  | _ + 1, .str s => jsonQuote s
  | f + 1, .arr xs => "[" ++ String.intercalate ", " (xs.map (jdumpF f)) ++ "]"
  | f + 1, .obj fs =>
    "\x7b" ++ String.intercalate ", "
      ((pySorted (fun p q => pyStrLe p.1 q.1) fs).map
        fun p => jsonQuote p.1 ++ ": " ++ jdumpF f p.2) ++ "\x7d"

/-- Python `json.dumps(v, sort_keys=True)`. -/
def jdump (v : JValue) : String := jdumpF (jsize v) v

/-- Lexicographic comparison of a string-headed pair, as Python compares
tuples: strict on the first component, deferring to `leB` on ties. -/
def strLexLe (leB : β → β → Bool) (p q : String × β) : Bool :=
  if pyStrLt p.1 q.1 then true
  else if pyStrLt q.1 p.1 then false
  else leB p.2 q.2

namespace CompareRuns

/-! ## scripts/compare_runs.py — snapshot normalizer, differ, log comparator -/
/-- A Canonical Element: the dict built by `normalize_snapshot` from one
`refs` entry.  Each field is `some v` exactly when the corresponding key was
present in the source info dict (the source copies the keys
`role,name,value,level,checked,disabled,selected,expanded,pressed,href`
when present, in that order). -/
structure CanonEl where
  role : Option JValue
  name : Option JValue
  value : Option JValue
  level : Option JValue
  checked : Option JValue
  disabled : Option JValue
  selected : Option JValue
  expanded : Option JValue
  pressed : Option JValue
  href : Option JValue

/-- The element built from one `refs` entry: `None` unless the entry is a
dict whose copied fields have a truthy `role` or `name`
(`if el.get("role") or el.get("name")`). -/
def elemOfInfo (info : JValue) : Option CanonEl :=
  match info with
  | .obj fs =>
    let el : CanonEl :=
      { role := JValue.find?.lookupField fs "role"
        name := JValue.find?.lookupField fs "name"
        value := JValue.find?.lookupField fs "value"
        level := JValue.find?.lookupField fs "level"
        checked := JValue.find?.lookupField fs "checked"
        disabled := JValue.find?.lookupField fs "disabled"
        selected := JValue.find?.lookupField fs "selected"
        expanded := JValue.find?.lookupField fs "expanded"
        pressed := JValue.find?.lookupField fs "pressed"
        href := JValue.find?.lookupField fs "href" }
    if optTruthy el.role || optTruthy el.name then some el else none
  | _ => none

/-- `str(e.get(k, ""))`: the Python `str` of a copied field, `""` when the
key was absent. -/
def optPyStr : Option JValue → String
  | none => ""
  | some v => pyStr v

/-- The sort key of `normalize_snapshot`:
`(str(e.get("role","")), str(e.get("name","")), str(e.get("value","")), str(e.get("href","")))`. -/
def canonKey (e : CanonEl) : String × String × String × String :=
  (optPyStr e.role, optPyStr e.name, optPyStr e.value, optPyStr e.href)

/-- `<=` on 4-tuples of strings, as Python compares the sort keys. -/
def key4Le (a b : String × String × String × String) : Bool :=
  strLexLe (strLexLe (strLexLe pyStrLe)) a b

/-- The element comparison used by the sort in `normalize_snapshot`. -/
def canonLe (a b : CanonEl) : Bool := key4Le (canonKey a) (canonKey b)

/-- The `data` value `normalize_snapshot` works from:
`sj["data"]` when present and a dict, else `sj` itself. -/
def snapshotData (sj : JValue) : JValue :=
  if sj.hasKey "data" && (sj.pyGet "data").isObj then sj.pyGet "data" else sj

/-- The `refs` value: `data.get("refs", {}) or {}` when `data` is a dict,
else `{}`. -/
def snapshotRefsVal (sj : JValue) : JValue :=
  if (snapshotData sj).isObj then
    if ((snapshotData sj).pyGetD "refs" (.obj [])).truthy
    then (snapshotData sj).pyGetD "refs" (.obj [])
    else .obj []
  else .obj []

/-- The `refs` association list that `normalize_snapshot` iterates over
(non-dict inputs are rejected up front, and a non-dict `refs` value is never
iterated). -/
def snapshotRefs (snapshot_json : JValue) : List (String × JValue) :=
  match snapshot_json with
  | .obj _ =>
    match snapshotRefsVal snapshot_json with
    | .obj fs => fs
    | _ => []
  | _ => []

/-- `normalize_snapshot`: canonical elements from the `refs` map, in map
order, sorted (stably) by `(role, name, value, href)` rendered through
`str`. -/
def normalize_snapshot (snapshot_json : JValue) : List CanonEl :=
  pySorted canonLe (((snapshotRefs snapshot_json).map Prod.snd).filterMap elemOfInfo)

/-- The `(count, by_role)` summary of a canonical element list. -/
structure ElementSummary where
  count : Nat
  by_role : List (String × Nat)
deriving DecidableEq

/-- Increment the histogram count of `x`, appending it on first occurrence
(Python dict insertion-order semantics). -/
def bumpCount {α : Type} [DecidableEq α] (acc : List (α × Nat)) (x : α) : List (α × Nat) :=
  match acc with
  | [] => [(x, 1)]
  | (k, n) :: rest => if k = x then (k, n + 1) :: rest else (k, n) :: bumpCount rest x

/-- Comparison on histogram entries by the key `(-count, role)`. -/
def byRoleLe (a b : String × Nat) : Bool :=
  if b.2 < a.2 then true
  else if a.2 < b.2 then false
  else pyStrLe a.1 b.1

/-- `element_summary`. -/
def element_summary (elements : List CanonEl) : ElementSummary :=
  let by_role := elements.foldl (fun acc el =>
    let role := optPyStr el.role
    if role ≠ "" then bumpCount acc role else acc) []
  { count := elements.length
    by_role := pySorted byRoleLe by_role }

/-- `extract_snapshot_payload`: recognize the envelope shape and return the
payload to normalize, or a format error message. -/
def extract_snapshot_payload (snapshot_raw : JValue) : Option JValue × Option String :=
  if !snapshot_raw.isObj then
    (none, some "snapshot file was not a JSON object")
  else if (snapshot_raw.pyGet "parsed_error").truthy then
    (none, some (pyStr (snapshot_raw.pyGet "parsed_error")))
  else if snapshot_raw.hasKey "stdout" && !snapshot_raw.hasKey "parsed"
      && !snapshot_raw.hasKey "success" && !snapshot_raw.hasKey "data" then
    (none, some "snapshot missing parsed payload")
  else if snapshot_raw.hasKey "parsed" then
    if (snapshot_raw.pyGet "parsed").isObj then (some (snapshot_raw.pyGet "parsed"), none)
    else (none, some "snapshot parsed payload was missing or invalid")
  else if snapshot_raw.hasKey "success" && snapshot_raw.hasKey "data" then
    (some snapshot_raw, none)
  else if snapshot_raw.hasKey "data" || snapshot_raw.hasKey "refs" then
    (some snapshot_raw, none)
  else
    (none, some "unrecognized snapshot format")

/-- The canonical element rendered back to a JSON object, with the fields in
the order the source inserts them (used only for the textual diff). -/
def canonElToJson (e : CanonEl) : JValue :=
  .obj (List.filterMap id
    [e.role.map (("role", ·)), e.name.map (("name", ·)), e.value.map (("value", ·)),
     e.level.map (("level", ·)), e.checked.map (("checked", ·)),
     e.disabled.map (("disabled", ·)), e.selected.map (("selected", ·)),
     e.expanded.map (("expanded", ·)), e.pressed.map (("pressed", ·)),
     e.href.map (("href", ·))])

/-- Model of `diff_normalized` (a unified diff of the two pretty-printed
JSON renderings via the stdlib `difflib.unified_diff`, which is external to
the core).  The model renders headers plus the serialized sides; no claim
depends on the diff's line contents, only on when it is produced. -/
def diff_normalized (a b : List CanonEl) (fromfile tofile : String) : List String :=
  ["--- " ++ fromfile, "+++ " ++ tofile]
    ++ (a.map fun e => "-" ++ jdump (canonElToJson e))
    ++ (b.map fun e => "+" ++ jdump (canonElToJson e))

/-- Python `==` on two canonical elements (dict equality, fieldwise). -/
def optJeq : Option JValue → Option JValue → Bool
  | none, none => true
  | some v, some w => jeq v w
  | _, _ => false

def canonElBeq (a b : CanonEl) : Bool :=
  optJeq a.role b.role && optJeq a.name b.name && optJeq a.value b.value
    && optJeq a.level b.level && optJeq a.checked b.checked
    && optJeq a.disabled b.disabled && optJeq a.selected b.selected
    && optJeq a.expanded b.expanded && optJeq a.pressed b.pressed
    && optJeq a.href b.href

/-- Python `==` on two lists of canonical elements. -/
def canonListBeq : List CanonEl → List CanonEl → Bool
  | [], [] => true
  | a :: as', b :: bs' => canonElBeq a b && canonListBeq as' bs'
  | _, _ => false

/-- The `(role, name)` key of the coarse added/removed view. -/
def canonPairKey (e : CanonEl) : String × String :=
  (optPyStr e.role, optPyStr e.name)

/-- Comparison for `_expanded`: Python tuple order on `(role, name, count)`. -/
def expandedLe (a b : String × String × Nat) : Bool :=
  strLexLe (strLexLe fun m n => Nat.ble m n) a b

/-- `_expanded`: one `(role, name, count)` triple per Counter key, sorted. -/
def expandedOf (keys : List (String × String)) : List (String × String × Nat) :=
  pySorted expandedLe
    ((keys.foldl bumpCount []).map fun p => (p.1.1, p.1.2, p.2))

/-- `baseline_for_norm or {}`. -/
def payloadOrEmpty : Option JValue → JValue
  | some v => if v.truthy then v else .obj []
  | none => .obj []

structure SnapSide where
  file : String
  error : Option String
  summary : Option ElementSummary
deriving DecidableEq

structure SnapChanges where
  added : List (String × String × Nat)
  removed : List (String × String × Nat)
  added_count : Nat
  removed_count : Nat
deriving DecidableEq

structure SnapCompareResult where
  same : Bool
  baseline : SnapSide
  modified : SnapSide
  changes : SnapChanges
  diff_lines : List String
  errorField : Option (Option String × Option String)
deriving DecidableEq

/-- Result of `_load_json_file(path)`: the parsed value (with Python `None`
represented as `JValue.null`) or a nonempty parse-error message. -/
structure LoadRes where
  val : JValue
  err : Option String

/-- `compare_snapshots`, over a filesystem mapping paths to load results. -/
def compare_snapshots (fs : String → LoadRes) (baseline_snap_path modified_snap_path : String) :
    SnapCompareResult :=
  let rb := fs baseline_snap_path
  let rm := fs modified_snap_path
  if strOptTruthy rb.err || strOptTruthy rm.err then
    { same := false
      baseline := ⟨baseline_snap_path, rb.err, none⟩
      modified := ⟨modified_snap_path, rm.err, none⟩
      changes := ⟨[], [], 0, 0⟩
      diff_lines := []
      errorField := some (rb.err, rm.err) }
  else
    let bex := extract_snapshot_payload rb.val
    let mex := extract_snapshot_payload rm.val
    if strOptTruthy bex.2 || strOptTruthy mex.2 then
      { same := false
        baseline := ⟨baseline_snap_path, bex.2, none⟩
        modified := ⟨modified_snap_path, mex.2, none⟩
        changes := ⟨[], [], 0, 0⟩
        diff_lines := []
        errorField := some (bex.2, mex.2) }
    else
      let base_norm := normalize_snapshot (payloadOrEmpty bex.1)
      let mod_norm := normalize_snapshot (payloadOrEmpty mex.1)
      let same := canonListBeq base_norm mod_norm
      let base_keys := base_norm.map canonPairKey
      let mod_keys := mod_norm.map canonPairKey
      let added := mod_keys.diff base_keys
      let removed := base_keys.diff mod_keys
      { same := same
        baseline := ⟨baseline_snap_path, none, some (element_summary base_norm)⟩
        modified := ⟨modified_snap_path, none, some (element_summary mod_norm)⟩
        changes := ⟨(expandedOf added).take 50, (expandedOf removed).take 50,
          added.length, removed.length⟩
        diff_lines := if same then [] else
          diff_normalized base_norm mod_norm
            ("baseline/" ++ baseline_snap_path) ("modified/" ++ modified_snap_path)
        errorField := none }

/-- `extract_log_entries` (compare_runs variant): entries plus format error. -/
def extract_log_entries (log_raw : JValue) : List JValue × Option String :=
  if !log_raw.isObj then
    ([], some "log file was not a JSON object")
  else if (log_raw.pyGet "parsed_error").truthy then
    ([], some (pyStr (log_raw.pyGet "parsed_error")))
  else if log_raw.hasKey "stdout" && !log_raw.hasKey "parsed"
      && !log_raw.hasKey "success" && !log_raw.hasKey "data" then
    ([], some "log missing parsed payload")
  else
    let payload := log_raw.pyGetD "parsed" log_raw
    let data := if payload.isObj && payload.hasKey "data" then payload.pyGet "data" else payload
    match data with
    | .null => ([], none)
    | .arr xs => (xs, none)
    | d => ([d], none)

/-- `normalize_entries`: each entry serialized with key-sorted `json.dumps`,
then the list of serializations sorted. -/
def normalize_entries (entries : List JValue) : List String :=
  pySorted pyStrLe (entries.map jdump)

structure LogSide where
  file : String
  error : Option String
  count : Option Nat
deriving DecidableEq

structure LogCompareResult where
  same : Bool
  baseline : LogSide
  modified : LogSide
deriving DecidableEq

/-- `compare_logs`, over the two parsed log files (the source `json.loads`
call raises on unreadable files before this logic runs). -/
def compare_logs (base_raw mod_raw : JValue) (baseline_path modified_path : String) :
    LogCompareResult :=
  let bex := extract_log_entries base_raw
  let mex := extract_log_entries mod_raw
  if strOptTruthy bex.2 || strOptTruthy mex.2 then
    { same := false
      baseline := ⟨baseline_path, bex.2, none⟩
      modified := ⟨modified_path, mex.2, none⟩ }
  else
    let base_norm := normalize_entries bex.1
    let mod_norm := normalize_entries mex.1
    { same := decide (base_norm = mod_norm)
      baseline := ⟨baseline_path, none, some bex.1.length⟩
      modified := ⟨modified_path, none, some mex.1.length⟩ }

/-- All `some` values of the option satisfy `NodupKeys`. -/
def OptWF (o : Option JValue) : Prop := ∀ v, o = some v → NodupKeys v

/-- Every field value of the canonical element is a well-formed JSON value. -/
def ElWF (e : CanonEl) : Prop :=
  OptWF e.role ∧ OptWF e.name ∧ OptWF e.value ∧ OptWF e.level ∧ OptWF e.checked
    ∧ OptWF e.disabled ∧ OptWF e.selected ∧ OptWF e.expanded ∧ OptWF e.pressed
    ∧ OptWF e.href

end CompareRuns

/-! ## Model of Python's `re` module and string helpers

A compiled regex is external to the core; `RePat` carries the raw pattern
text, whether `re.compile` accepts it, and the behaviours of
`pattern.search` (does a match exist?) and `pattern.findall` (the list of
matched substrings, one entry per non-overlapping match).  The single
pattern given concretely by the spec, `hg:[a-z]+`, gets an executable
matcher below. -/
structure RePat where
  raw : String
  compiles : Bool
  srch : String → Bool
  findall : String → List String

def isAsciiLowerAlpha (c : Char) : Bool := 'a' ≤ c && c ≤ 'z'

/-- `re.findall(r"hg:[a-z]+", s)`: scan left to right, at each position match
`hg:` followed by a maximal nonempty run of lowercase letters, consuming
each match. -/
def hgScan : Nat → List Char → List String
  | 0, _ => []
  | _ + 1, [] => []
  | fuel + 1, 'h' :: 'g' :: ':' :: r =>
    let run := r.takeWhile isAsciiLowerAlpha
    if run.isEmpty then hgScan fuel ('g' :: ':' :: r)
    else ("hg:" ++ String.mk run) :: hgScan fuel (r.dropWhile isAsciiLowerAlpha)
  | fuel + 1, _ :: rest => hgScan fuel rest

def hgFindall (s : String) : List String := hgScan s.data.length s.data

/-- The compiled pattern `hg:[a-z]+`. -/
def hgPattern : RePat :=
  ⟨"hg:[a-z]+", true, fun s => !(hgFindall s).isEmpty, hgFindall⟩

/-- Python `str.lower()` (ASCII; the data under test is ASCII). -/
def lowerChar (c : Char) : Char :=
  if 'A' ≤ c ∧ c ≤ 'Z' then Char.ofNat (c.toNat + 32) else c

def pyLower (s : String) : String := String.mk (s.data.map lowerChar)

def isSubChars (needle : List Char) : List Char → Bool
  | [] => needle.isEmpty
  | c :: rest => needle.isPrefixOf (c :: rest) || isSubChars needle rest

/-- Python `needle in hay` on strings (substring test). -/
def pyInStr (needle hay : String) : Bool := isSubChars needle.data hay.data

/-- `payload or {}`. -/
def orEmptyObj : Option JValue → JValue
  | some v => if v.truthy then v else .obj []
  | none => .obj []

namespace Collectors

/-! ## scripts/collectors.py — log-entry extraction and AI-output analysis -/
/-- `extract_data_field`: `record["parsed"]["data"]` when `parsed` is a dict
holding `"data"`, else Python `None`. -/
def extract_data_field (record : JValue) : JValue :=
  let parsed := record.pyGet "parsed"
  if parsed.isObj && parsed.hasKey "data" then parsed.pyGet "data" else .null

/-- The first of the known log-entry keys whose value is a list. -/
def firstListOf (data : JValue) : List String → List JValue
  | [] => []
  | k :: ks =>
    match data.pyGet k with
    | .arr xs => xs
    | _ => firstListOf data ks

/-- `extract_log_entries` (collectors variant). -/
def extract_log_entries (record : JValue) : List JValue :=
  let data := extract_data_field record
  match data with
  | .arr xs => xs
  | .obj _ => firstListOf data ["errors", "messages", "logs", "entries"]
  | d => if d.truthy then [d] else []

/-- The summary dict of `analyze_ai_output`. -/
structure AnalyzeResult where
  final_answer_len : Nat
  tool_payload_len : Nat
  raw_in_final_answer : Bool
  raw_in_tool_payload : Bool
  raw_matches_final_answer : List String
  raw_matches_tool_payload : List String
  label_terms_present_in_final_answer : List String
deriving DecidableEq

/-- `_compile_patterns`: invalid regexes are skipped (with a warning). -/
def compilePatterns (patterns : List RePat) : List RePat :=
  patterns.filter (·.compiles)

/-- `sorted(set(xs))` for strings. -/
def sortedSet (xs : List String) : List String :=
  pySorted pyStrLe xs.dedup

/-- `analyze_ai_output`. -/
def analyze_ai_output (final_answer tool_payload : String)
    (raw_value_patterns : List RePat) (label_terms : List String) : AnalyzeResult :=
  let raw_patterns := compilePatterns raw_value_patterns
  let raw_matches_final :=
    sortedSet ((raw_patterns.map fun p => p.findall final_answer).flatten)
  let raw_matches_tool :=
    sortedSet ((raw_patterns.map fun p => p.findall tool_payload).flatten)
  let label_terms_present := label_terms.filter fun term =>
    term ≠ "" && pyInStr (pyLower term) (pyLower final_answer)
  { final_answer_len := final_answer.length
    tool_payload_len := tool_payload.length
    raw_in_final_answer := !raw_matches_final.isEmpty
    raw_in_tool_payload := !raw_matches_tool.isEmpty
    raw_matches_final_answer := raw_matches_final
    raw_matches_tool_payload := raw_matches_tool
    label_terms_present_in_final_answer := label_terms_present }

end Collectors

namespace Manifest

/-! ## scripts/intent/manifest.py — manifest validation -/
/-- `if issue is None: issue = {}`. -/
def noneToEmptyObj : JValue → JValue
  | .null => .obj []
  | v => v

/-- The issue / intent_statement checks. -/
def issueErrors (manifest : JValue) : List String :=
  let issue := noneToEmptyObj (manifest.pyGet "issue")
  let intent := manifest.pyGet "intent_statement"
  if !issue.isObj then ["issue must be an object"]
  else if (!(issue.pyGet "url").truthy || !(issue.pyGet "title").truthy)
      && !intent.truthy then
    ["issue.url and issue.title are required unless intent_statement is provided"]
  else []

/-- The environment checks. -/
def envErrors (manifest : JValue) : List String :=
  let env := manifest.pyGet "environment"
  if !env.isObj then ["environment must be an object"]
  else if !(env.pyGet "base_url").truthy then ["environment.base_url is required"]
  else []

/-- The strategy checks (`mode` defaults to `"single"` when absent). -/
def strategyErrors (manifest : JValue) : List String :=
  let strategy := manifest.pyGet "strategy"
  if !strategy.isObj then ["strategy must be an object"]
  else
    let mode := strategy.pyGetD "mode" (.str "single")
    if !(jeq mode (.str "single")) && !(jeq mode (.str "compare")) then
      ["strategy.mode must be 'single' or 'compare'"]
    else []

/-- The steps check: a non-empty list is required. -/
def stepsErrors (manifest : JValue) : List String :=
  let steps := manifest.pyGet "steps"
  if !steps.isArr || !steps.truthy then ["steps must be a non-empty list"]
  else []

/-- The assertions check. -/
def assertionsErrors (manifest : JValue) : List String :=
  let assertions := manifest.pyGetD "assertions" (.arr [])
  if assertions.truthy && !assertions.isArr then ["assertions must be a list"]
  else []

/-- The adr checks (at most one `adr entries must be strings` message — the
source breaks out of the loop at the first offender). -/
def adrErrors (manifest : JValue) : List String :=
  let adr := manifest.pyGetD "adr" (.arr [])
  if adr.truthy && !adr.isArr then ["adr must be a list of strings"]
  else
    match adr with
    | .arr xs => if xs.all (·.isStr) then [] else ["adr entries must be strings"]
    | _ => []

/-- `validate_manifest`: all failures collected, in source order. -/
def validate_manifest (manifest : JValue) : List String :=
  match manifest with
  | .obj _ =>
    issueErrors manifest ++ envErrors manifest ++ strategyErrors manifest
      ++ stepsErrors manifest ++ assertionsErrors manifest ++ adrErrors manifest
  | _ => ["Manifest must be a mapping/object."]

end Manifest

namespace JudgeIntent

/-! ## scripts/judge_intent.py — assertion judge -/
/-- One checkpoint record of a completed run, as the judge reads it.
`artifacts` maps each evidence kind to the path of its JSON file (the
`probes` entry, a list of paths, is never read by the judge and is not
modelled). -/
structure Checkpoint where
  name : Option String
  url : Option String
  artifacts : List (String × String)
deriving DecidableEq

/-- An inline (DSL) assertion result recorded during execution; `passed` is
the truthiness of its `passed` entry. -/
structure DslAssertion where
  id : Option String
  type : Option String
  passed : Bool
  message : String
deriving DecidableEq

/-- A completed run: its checkpoint list and inline assertion results. -/
structure Run where
  checkpoints : List Checkpoint
  dslAssertions : List DslAssertion
deriving DecidableEq

/-- A manifest assertion/guard as the judge reads it.  `severity` and
`level` carry `assertion.get("severity", "fail")` / `.get("level", "alert")`
already applied; `patterns` are the configured regexes. -/
structure Assertion where
  id : Option String
  type : Option String
  severity : String
  checkpoint : Option String
  scope : Option String
  patterns : List RePat
  path : Option String
  expected : JValue
  level : String
  contains : Option String

/-- The judged manifest: its assertions and guards. -/
structure JManifest where
  assertions : List Assertion
  guards : List Assertion

/-- `get_checkpoint`: `None` on an empty list; the first checkpoint whose
`name` equals a truthy requested name (or `None` when none matches); the
last checkpoint when no name is requested. -/
def get_checkpoint (run : Run) (name : Option String) : Option Checkpoint :=
  if run.checkpoints.isEmpty then none
  else if strOptTruthy name then
    run.checkpoints.find? fun cp => cp.name == name
  else run.checkpoints.getLast?

/-- `load_artifact`: `None` for a falsy path, else the parsed file or `None`
when reading/parsing fails (the filesystem model returns `none` there). -/
def load_artifact (fs : String → Option JValue) : Option String → Option JValue
  | some p => if p = "" then none else fs p
  | none => none

/-- `extract_ai_fields`: the `(final_answer, tool_payload)` strings of the
checkpoint's `ai_explorer` artifact, `("", "")` when unavailable. -/
def extract_ai_fields (fs : String → Option JValue) (cp : Checkpoint) : String × String :=
  match load_artifact fs (cp.artifacts.lookup "ai_explorer") with
  | none => ("", "")
  | some payload =>
    if !payload.truthy then ("", "")
    else
      let data := if payload.isObj then payload.pyGet "data" else .null
      if !data.isObj then ("", "")
      else ((data.pyGet "final_answer").strOrEmpty, (data.pyGet "tool_payload").strOrEmpty)

/-- `extract_drupal_messages`: the `(status, alert)` values of the
checkpoint's `drupal_messages` artifact, `(None, None)` when unavailable. -/
def extract_drupal_messages (fs : String → Option JValue) (cp : Checkpoint) :
    JValue × JValue :=
  match load_artifact fs (cp.artifacts.lookup "drupal_messages") with
  | none => (.null, .null)
  | some payload =>
    if !payload.truthy then (.null, .null)
    else
      let data := if payload.isObj then payload.pyGet "data" else .null
      if !data.isObj then (.null, .null)
      else (data.pyGet "status", data.pyGet "alert")

def isWordOrHyphenChar (c : Char) : Bool :=
  ('a' ≤ c && c ≤ 'z') || ('A' ≤ c && c ≤ 'Z') || ('0' ≤ c && c ≤ '9')
    || c = '_' || c = '-'

def isDigitChar (c : Char) : Bool := '0' ≤ c && c ≤ '9'

def digitsToNat (cs : List Char) : Nat :=
  cs.foldl (fun acc c => acc * 10 + (c.toNat - '0'.toNat)) 0

/-- The match of `^([\w-]+)(\[(\d+)\])?$` against one dotted-path part:
the key and the optional index. -/
def pathPartParse (part : String) : Option (String × Option Nat) :=
  let cs := part.data
  let key := cs.takeWhile isWordOrHyphenChar
  let rest := cs.dropWhile isWordOrHyphenChar
  if key.isEmpty then none
  else
    match rest with
    | [] => some (String.mk key, none)
    | '[' :: more =>
      let digits := more.takeWhile isDigitChar
      let tail := more.dropWhile isDigitChar
      if digits.isEmpty then none
      else
        match tail with
        | [']'] => some (String.mk key, some (digitsToNat digits))
        | _ => none
    | _ => none

/-- Python `path.split(".")`. -/
def splitDotAux : List Char → List Char → List String
  | acc, [] => [String.mk acc.reverse]
  | acc, '.' :: rest => String.mk acc.reverse :: splitDotAux [] rest
  | acc, c :: rest => splitDotAux (c :: acc) rest

def pySplitDot (s : String) : List String := splitDotAux [] s.data

def getByPathGo : JValue → List String → JValue
  | current, [] => current
  | current, part :: rest =>
    if part = "" then getByPathGo current rest
    else
      match pathPartParse part with
      | none => .null
      | some (key, idx?) =>
        match current with
        | .obj _ =>
          let next := current.pyGet key
          match idx? with
          | none => getByPathGo next rest
          | some i =>
            match next with
            | .arr xs =>
              if i < xs.length then getByPathGo (xs.getD i .null) rest else .null
            | _ => .null
        | _ => .null

/-- `get_by_path`: walk a dotted/indexed path through parsed data, `None`
(modelled as `null`, as Python's `None` result) on any mismatch. -/
def get_by_path (data : JValue) (path : String) : JValue :=
  getByPathGo data (pySplitDot path)

/-- `evaluate_text_assertion`: `(passed, hits)` — the raw patterns that
compile and match the text, demanded present or absent. -/
def evaluate_text_assertion (text : String) (patterns : List RePat)
    (expect_present : Bool) : Bool × List String :=
  let hits := (patterns.filter fun p => p.compiles && p.srch text).map (·.raw)
  (if expect_present then !hits.isEmpty else hits.isEmpty, hits)

/-- One evaluated assertion (the result dict of `evaluate_assertion`). -/
structure EvalResult where
  id : Option String
  type : Option String
  severity : String
  passed : Bool
  status : String
  message : String
deriving DecidableEq

/-- The result dict as initialized at the top of `evaluate_assertion`. -/
def mkResult (assertion : Assertion) : EvalResult :=
  ⟨assertion.id, assertion.type, assertion.severity, false, "FAIL", ""⟩

/-- Python `repr` of a list of strings (for the `patterns matched: {hits}`
message). -/
def pyReprStrList (xs : List String) : String :=
  "[" ++ String.intercalate ", " (xs.map fun s => "'" ++ s ++ "'") ++ "]"

/-- `str(a_type)` for the unknown-type message. -/
def typeStr : Option String → String
  | none => "None"
  | some s => s

/-- `evaluate_assertion`.  `fs` models the filesystem of artifact files;
`yamlAvailable`/`yamlLoad` model the optional PyYAML dependency and
`yaml.safe_load` (exceptions as `Except.error`). -/
def evaluate_assertion (fs : String → Option JValue) (yamlAvailable : Bool)
    (yamlLoad : String → Except String JValue) (assertion : Assertion) (run : Run) :
    EvalResult :=
  let result := mkResult assertion
  match get_checkpoint run assertion.checkpoint with
  | none => { result with status := "ERROR", message := "checkpoint not found" }
  | some cp =>
    if assertion.type == some "text_absent" || assertion.type == some "text_present" then
      let text :=
        if assertion.scope == some "final_answer" then (extract_ai_fields fs cp).1
        else if assertion.scope == some "tool_call" then (extract_ai_fields fs cp).2
        else if assertion.scope == some "drupal_status" then
          (extract_drupal_messages fs cp).1.strOrEmpty
        else if assertion.scope == some "drupal_alert" then
          (extract_drupal_messages fs cp).2.strOrEmpty
        else ""
      let expect_present := assertion.type == some "text_present"
      let pr := evaluate_text_assertion text assertion.patterns expect_present
      { result with
        passed := pr.1
        status := (if pr.1 then "PASS" else "FAIL")
        message := (if pr.1 then "" else "patterns matched: " ++ pyReprStrList pr.2) }
    else if assertion.type == some "yaml_path_equals" then
      let tool := (extract_ai_fields fs cp).2
      if tool = "" then { result with status := "ERROR", message := "tool payload not found" }
      else if !yamlAvailable then
        { result with status := "ERROR", message := "PyYAML required to parse tool payload" }
      else
        match yamlLoad tool with
        | .error exc =>
          { result with
            status := "ERROR"
            message := "tool payload parse error: " ++ exc }
        | .ok parsed =>
          let actual := get_by_path parsed (assertion.path.getD "")
          let passed := jeq actual assertion.expected
          { result with
            passed := passed
            status := (if passed then "PASS" else "FAIL")
            message := "expected " ++ pyStr assertion.expected ++ ", got " ++ pyStr actual }
    else if assertion.type == some "no_console_errors" then
      let payload := load_artifact fs (cp.artifacts.lookup "errors")
      let count := (Collectors.extract_log_entries (orEmptyObj payload)).length
      let passed := count == 0
      { result with
        passed := passed
        status := (if passed then "PASS" else "FAIL")
        message := "console errors count: " ++ toString count }
    else if assertion.type == some "no_drupal_messages" then
      let sa := extract_drupal_messages fs cp
      let target := if assertion.level = "alert" then sa.2 else sa.1
      let passed := !target.truthy
      { result with
        passed := passed
        status := (if passed then "PASS" else "FAIL")
        message := (if target.truthy
          then assertion.level ++ " messages present: " ++ pyStr target else "") }
    else if assertion.type == some "url_contains" then
      let url := cp.url.getD ""
      let expected := assertion.contains.getD ""
      let passed := pyInStr expected url
      { result with
        passed := passed
        status := (if passed then "PASS" else "FAIL")
        message := "url " ++ url ++ " contains " ++ expected }
    else
      { result with
        status := "ERROR"
        message := "unknown assertion type: " ++ typeStr assertion.type }

/-- The evaluated form of an inline DSL assertion appended by `judge`. -/
def dslEval (d : DslAssertion) : EvalResult :=
  ⟨d.id, d.type, "fail", d.passed, (if d.passed then "PASS" else "FAIL"), d.message⟩

/-- The verdict record. -/
structure Verdict where
  verdict : String
  ready_to_submit : Bool
  assertions : List EvalResult
  failures : List EvalResult
  errors : List EvalResult
deriving DecidableEq

/-- `judge`: evaluate manifest assertions, then guards, then the run's
inline assertions; failures are the not-passed fail-severity `FAIL`s,
errors are all `ERROR`s; `ERROR` dominates `FAIL` dominates `PASS`. -/
def judge (fs : String → Option JValue) (yamlAvailable : Bool)
    (yamlLoad : String → Except String JValue) (manifest : JManifest) (run : Run) :
    Verdict :=
  let evaluated :=
    ((manifest.assertions ++ manifest.guards).map fun a =>
      evaluate_assertion fs yamlAvailable yamlLoad a run)
    ++ run.dslAssertions.map dslEval
  let failures := evaluated.filter fun a =>
    !a.passed && a.status == "FAIL" && a.severity == "fail"
  let errors := evaluated.filter fun a => a.status == "ERROR"
  if !errors.isEmpty then
    ⟨"ERROR", false, evaluated, failures, errors⟩
  else if !failures.isEmpty then
    ⟨"FAIL", false, evaluated, failures, errors⟩
  else
    ⟨"PASS", true, evaluated, failures, errors⟩

end JudgeIntent

/-! ## Auxiliary executable well-formedness check and concrete fixtures -/
/-- Fuel-indexed executable check for `NodupKeys` (used to discharge
well-formedness of concrete values). -/
def nodupKeysB : Nat → JValue → Bool
  | 0, _ => false
  | _ + 1, .null => true
  | _ + 1, .bool _ => true
  | _ + 1, .num _ => true
  | _ + 1, .str _ => true
  | f + 1, .arr xs => xs.all (nodupKeysB f)
  | f + 1, .obj fs => decide (fs.map Prod.fst).Nodup && fs.all fun p => nodupKeysB f p.2

/-- The `(role, name)` key multiset of the canonical elements a snapshot
payload normalizes to. -/
def CompareRuns.snapKeys (payload : Option JValue) : List (String × String) :=
  (CompareRuns.normalize_snapshot (CompareRuns.payloadOrEmpty payload)).map
    CompareRuns.canonPairKey

/-- The verdict stated by the spec sentence under scrutiny: `ERROR`/`FAIL`
status only forces the verdict when it occurs on a fail-severity assertion.
(This is the claim's formula, written from the spec's words; the code is
compared against it.) -/
def specVerdictC1 (evaluated : List JudgeIntent.EvalResult) : String :=
  if evaluated.any (fun a => a.severity == "fail" && a.status == "ERROR") then "ERROR"
  else if evaluated.any (fun a => a.severity == "fail" && a.status == "FAIL") then "FAIL"
  else "PASS"

/-- An empty filesystem: every artifact load fails. -/
def fsEmpty : String → Option JValue := fun _ => none

/-- A YAML loader stub for inputs whose judged assertions never parse YAML. -/
def ylStub : String → Except String JValue := fun _ => .error "unused"

def cpDupA : JudgeIntent.Checkpoint := ⟨some "cp", some "https://a", []⟩

def cpDupB : JudgeIntent.Checkpoint := ⟨some "cp", some "https://b", []⟩

/-- A run that captured two checkpoints under the same name `cp`. -/
def runDup : JudgeIntent.Run := ⟨[cpDupA, cpDupB], []⟩

/-- A warn-severity assertion of unknown type, evaluating to status ERROR. -/
def warnBogus : JudgeIntent.Assertion :=
  ⟨some "w", some "bogus", "warn", some "cp", none, [], none, .null, "alert", none⟩

def manifestWarnOnly : JudgeIntent.JManifest := ⟨[warnBogus], []⟩

/-- A fail-severity `no_console_errors` assertion against checkpoint `cp`. -/
def nceAssertion : JudgeIntent.Assertion :=
  ⟨some "n", some "no_console_errors", "fail", some "cp", none, [], none, .null, "alert", none⟩

/-- `{role: "link", name: "A"}`. -/
def linkA : JValue := .obj [("role", .str "link"), ("name", .str "A")]

/-- A snapshot file normalizing to two `link`/`A` elements. -/
def basePayload : JValue := .obj [("success", .bool true),
  ("data", .obj [("snapshot", .str "noise"), ("refs", .obj [("e1", linkA), ("e2", linkA)])])]

/-- A snapshot file normalizing to one `link`/`A` element. -/
def modPayload : JValue := .obj [("success", .bool true),
  ("data", .obj [("snapshot", .str "noise2"), ("refs", .obj [("e1", linkA)])])]

/-- Filesystem holding the two snapshot files above. -/
def fsPair : String → CompareRuns.LoadRes := fun p =>
  if p = "base.json" then ⟨basePayload, none⟩ else ⟨modPayload, none⟩

/-- A heading element info with `level` 2. -/
def infoH2 : JValue := .obj [("role", .str "heading"), ("name", .str "T"), ("level", .num 2)]

/-- The same heading element info except `level` 3. -/
def infoH3 : JValue := .obj [("role", .str "heading"), ("name", .str "T"), ("level", .num 3)]

/-- Snapshot whose refs hold the level-2 then the level-3 heading. -/
def snapH23 : JValue := .obj [("refs", .obj [("e1", infoH2), ("e2", infoH3)])]

/-- The same refs multiset under renumbered keys in the opposite insertion
order. -/
def snapH32 : JValue := .obj [("refs", .obj [("e1", infoH3), ("e2", infoH2)])]

/-- Filesystem holding the two permuted-refs snapshot files. -/
def fsPerm : String → CompareRuns.LoadRes := fun p =>
  if p = "a.json" then ⟨snapH23, none⟩ else ⟨snapH32, none⟩

/-- A single-element refs snapshot, keyed `e1`. -/
def snapSingle1 : JValue := .obj [("refs", .obj [("e1", infoH2)])]

/-- The same single-element refs snapshot, keyed `e9`. -/
def snapSingle2 : JValue := .obj [("refs", .obj [("e9", infoH2)])]

/-- The canonical element both single-element snapshots normalize to. -/
def elH2 : CompareRuns.CanonEl :=
  ⟨some (.str "heading"), some (.str "T"), none, some (.num 2),
    none, none, none, none, none, none⟩

/-- Two log entries (objects with differing key order). -/
def logEntry1 : JValue := .obj [("level", .str "warn"), ("msg", .str "a")]

def logEntry2 : JValue := .obj [("msg", .str "b"), ("level", .str "err")]

/-- A console-log file holding `[logEntry1, logEntry2]`. -/
def logFileA : JValue := .obj [("parsed", .obj [("data", .arr [logEntry1, logEntry2])])]

/-- The same console-log file with the entries reordered. -/
def logFileB : JValue := .obj [("parsed", .obj [("data", .arr [logEntry2, logEntry1])])]

/-- A filesystem where the baseline snapshot file is unparseable. -/
def fsBroken : String → CompareRuns.LoadRes := fun p =>
  if p = "bad.json" then ⟨.null, some "failed to parse JSON: Expecting value"⟩
  else ⟨basePayload, none⟩

/-- A manifest whose other fields are all invalid while `environment` is an
object lacking `base_url`. -/
def manifestNoBaseUrl : JValue := .obj
  [("issue", .str "notadict"), ("environment", .obj [("base_url", .str "")]),
   ("strategy", .num 3), ("steps", .arr []), ("assertions", .num 1),
   ("adr", .arr [.num 2])]

def lawfulBEqOfDecidableEq {α : Type} [DecidableEq α] : @LawfulBEq α instBEqOfDecidableEq :=
  @LawfulBEq.mk α instBEqOfDecidableEq
    (fun h => of_decide_eq_true h) (decide_eq_true rfl)

theorem lawfulBeq_comm {α : Type} [BEq α] [LawfulBEq α] (a b : α) : (a == b) = (b == a) := by
  by_cases h : a = b
  · subst h; rfl
  · rw [beq_eq_false_iff_ne.mpr h, beq_eq_false_iff_ne.mpr (Ne.symm h)]

theorem jeqF_symm (f : Nat) (v w : JValue) : jeqF f v w = jeqF f w v := by
  induction f generalizing v w with
  | zero => rfl
  | succ f ih =>
    cases v <;> cases w <;> (try rfl) <;> simp only [jeqF]
    · exact lawfulBeq_comm ..
    · exact lawfulBeq_comm ..
    · exact lawfulBeq_comm ..
    · rename_i xs ys
      rw [lawfulBeq_comm xs.length ys.length]
      congr 1
      rw [← List.zip_swap xs ys, List.all_map]
      congr 1
      funext p
      simp only [Function.comp_apply, Prod.fst_swap, Prod.snd_swap]
      exact ih p.1 p.2
    · exact Bool.and_comm _ _

theorem jeq_symm (v w : JValue) : jeq v w = jeq w v := by
  unfold jeq
  rw [Nat.add_comm]
  exact jeqF_symm _ v w

theorem jsize_pos (v : JValue) : 1 ≤ jsize v := by
  cases v <;> simp only [jsize] <;> omega

theorem jsize_le_of_mem_list {x : JValue} {xs : List JValue} (h : x ∈ xs) :
    jsize x ≤ jsizeList xs := by
  induction xs with
  | nil => cases h
  | cons y ys ih =>
    rcases List.mem_cons.mp h with h | h
    · subst h; simp [jsizeList]; omega
    · have := ih h; simp [jsizeList]; omega

theorem jsize_le_of_mem_fields {p : String × JValue} {fs : List (String × JValue)}
    (h : p ∈ fs) : jsize p.2 ≤ jsizeFields fs := by
  induction fs with
  | nil => cases h
  | cons q qs ih =>
    rcases List.mem_cons.mp h with h | h
    · subst h; cases p; simp [jsizeFields]; omega
    · have := ih h; cases q; simp [jsizeFields]; omega

theorem lookupField_eq_of_nodup {fs : List (String × JValue)}
    (hn : (fs.map Prod.fst).Nodup) {p : String × JValue} (hp : p ∈ fs) :
    JValue.find?.lookupField fs p.1 = some p.2 := by
  induction fs with
  | nil => cases hp
  | cons q qs ih =>
    rcases List.mem_cons.mp hp with h | h
    · subst h
      simp [JValue.find?.lookupField]
    · have hq : q.1 ≠ p.1 := by
        intro he
        have : p.1 ∈ qs.map Prod.fst := List.mem_map.mpr ⟨p, h, rfl⟩
        rw [← he] at this
        exact (List.nodup_cons.mp (by simpa using hn)).1 this
      obtain ⟨qk, qv⟩ := q
      simp only [JValue.find?.lookupField]
      rw [if_neg hq]
      exact ih (List.nodup_cons.mp (by simpa using hn)).2 h

theorem mem_zip_same {α : Type} {p : α × α} {xs : List α} (h : p ∈ xs.zip xs) :
    p.1 = p.2 ∧ p.1 ∈ xs := by
  induction xs with
  | nil => cases h
  | cons x t ih =>
    rcases List.mem_cons.mp h with h | h
    · subst h; exact ⟨rfl, List.mem_cons_self x t⟩
    · exact ⟨(ih h).1, List.mem_cons_of_mem x (ih h).2⟩

/-- Python `==` is reflexive on well-formed JSON values (given enough fuel). -/
theorem jeqF_refl (f : Nat) (v : JValue) (hwf : NodupKeys v) (hf : jsize v ≤ f) :
    jeqF f v v = true := by
  induction f generalizing v with
  | zero => have := jsize_pos v; omega
  | succ f ih =>
    cases hwf with
    | null => rfl
    | bool b => simp [jeqF]
    | num n => simp [jeqF]
    | str s => simp [jeqF]
    | arr hxs =>
      rename_i xs
      simp only [jeqF, Bool.and_eq_true, beq_iff_eq, List.all_eq_true]
      refine ⟨by simp, ?_⟩
      intro p hp
      obtain ⟨heq, hmem⟩ := mem_zip_same hp
      rw [← heq]
      refine ih p.1 (hxs p.1 hmem) ?_
      have h1 := jsize_le_of_mem_list hmem
      simp only [jsize] at hf
      omega
    | obj hn hvals =>
      rename_i fs
      simp only [jeqF, Bool.and_eq_true]
      have hincl : inclFieldsF (jeqF f) fs fs = true := by
        simp only [inclFieldsF, List.all_eq_true]
        intro p hp
        rw [lookupField_eq_of_nodup hn hp]
        refine ih p.2 (hvals p hp) ?_
        have h1 := jsize_le_of_mem_fields hp
        simp only [jsize] at hf
        omega
      exact ⟨hincl, hincl⟩

/-- Python `==` is reflexive on well-formed JSON values. -/
theorem jeq_refl (v : JValue) (hwf : NodupKeys v) : jeq v v = true :=
  jeqF_refl _ v hwf (by omega)

/-! ### Python string comparison

Python compares `str` values lexicographically by code point.  `String.data`
exposes the code points; `charListLt` is strict lexicographic order on the
underlying character lists. -/
theorem charToNat_inj {a b : Char} (h : a.toNat = b.toNat) : a = b := by
  apply Char.eq_of_val_eq
  exact UInt32.eq_of_val_eq (Fin.ext h)

theorem charListLt_asymm : ∀ {a b : List Char},
    charListLt a b = true → charListLt b a = false := by
  intro a
  induction a with
  | nil =>
    intro b h
    cases b with
    | nil => rfl
    | cons y ys => rfl
  | cons x xs ih =>
    intro b h
    cases b with
    | nil => simp [charListLt] at h
    | cons y ys =>
      simp only [charListLt, Bool.or_eq_true, Bool.and_eq_true, decide_eq_true_eq] at h ⊢
      rcases h with h | ⟨he, hrec⟩
      · simp only [Bool.or_eq_false_iff, Bool.and_eq_false_iff, decide_eq_false_iff_not]
        constructor
        · omega
        · left; omega
      · simp only [Bool.or_eq_false_iff, Bool.and_eq_false_iff, decide_eq_false_iff_not]
        refine ⟨by omega, Or.inr (ih hrec)⟩

theorem charListLt_trans : ∀ {a b c : List Char},
    charListLt a b = true → charListLt b c = true → charListLt a c = true := by
  intro a
  induction a with
  | nil =>
    intro b c hab hbc
    cases c with
    | nil =>
      cases b with
      | nil => simp [charListLt] at hab
      | cons y ys => simp [charListLt] at hbc
    | cons z zs => rfl
  | cons x xs ih =>
    intro b c hab hbc
    cases b with
    | nil => simp [charListLt] at hab
    | cons y ys =>
      cases c with
      | nil => simp [charListLt] at hbc
      | cons z zs =>
        simp only [charListLt, Bool.or_eq_true, Bool.and_eq_true, decide_eq_true_eq]
          at hab hbc ⊢
        rcases hab with hab | ⟨hab, hrec⟩
        · rcases hbc with hbc | ⟨hbc, _⟩
          · left; omega
          · left; omega
        · rcases hbc with hbc | ⟨hbc, hrec'⟩
          · left; omega
          · right; exact ⟨by omega, ih hrec hrec'⟩

theorem charListLt_eq_of_not_lt : ∀ {a b : List Char},
    charListLt a b = false → charListLt b a = false → a = b := by
  intro a
  induction a with
  | nil =>
    intro b hab _
    cases b with
    | nil => rfl
    | cons y ys => simp [charListLt] at hab
  | cons x xs ih =>
    intro b hab hba
    cases b with
    | nil => simp [charListLt] at hba
    | cons y ys =>
      simp only [charListLt, Bool.or_eq_false_iff, Bool.and_eq_false_iff,
        decide_eq_false_iff_not] at hab hba
      obtain ⟨h1, h2⟩ := hab
      obtain ⟨h3, h4⟩ := hba
      have hxy : x = y := charToNat_inj (by omega)
      subst hxy
      rcases h2 with h2 | h2
      · omega
      · rcases h4 with h4 | h4
        · omega
        · rw [ih h2 h4]

theorem strData_inj {a b : String} (h : a.data = b.data) : a = b := by
  cases a
  cases b
  exact congrArg String.mk h

theorem pyStrLe_total (a b : String) : pyStrLe a b = true ∨ pyStrLe b a = true := by
  unfold pyStrLe pyStrLt
  by_cases h : charListLt b.data a.data = true
  · right
    rw [charListLt_asymm h]
    rfl
  · left
    simp only [Bool.not_eq_true] at h
    rw [h]
    rfl

theorem pyStrLe_trans {a b c : String} (h1 : pyStrLe a b = true)
    (h2 : pyStrLe b c = true) : pyStrLe a c = true := by
  unfold pyStrLe pyStrLt at h1 h2 ⊢
  simp only [Bool.not_eq_true'] at h1 h2 ⊢
  by_contra hca
  simp only [Bool.not_eq_false] at hca
  by_cases hbc : charListLt b.data c.data = true
  · have : charListLt b.data a.data = true := charListLt_trans hbc hca
    rw [h1] at this
    exact Bool.false_ne_true this
  · have hbc' : charListLt b.data c.data = false := by simpa using hbc
    have hbceq : b.data = c.data := charListLt_eq_of_not_lt hbc' h2
    rw [← hbceq] at hca
    rw [h1] at hca
    exact Bool.false_ne_true hca

theorem pyStrLe_antisymm {a b : String} (h1 : pyStrLe a b = true)
    (h2 : pyStrLe b a = true) : a = b := by
  unfold pyStrLe pyStrLt at h1 h2
  simp only [Bool.not_eq_true'] at h1 h2
  exact strData_inj (charListLt_eq_of_not_lt h2 h1)

theorem insertLe_perm (le : α → α → Bool) (x : α) (l : List α) :
    (insertLe le x l).Perm (x :: l) := by
  induction l with
  | nil => exact List.Perm.refl _
  | cons y ys ih =>
    simp only [insertLe]
    by_cases h : le y x = true
    · rw [if_pos h]
      exact (ih.cons y).trans (List.Perm.swap x y ys)
    · rw [if_neg h]

theorem foldl_insertLe_perm (le : α → α → Bool) :
    ∀ (l acc : List α), (l.foldl (fun a x => insertLe le x a) acc).Perm (acc ++ l) := by
  intro l
  induction l with
  | nil => intro acc; simp
  | cons x t ih =>
    intro acc
    simp only [List.foldl_cons]
    refine (ih (insertLe le x acc)).trans ?_
    refine (List.Perm.append_right t (insertLe_perm le x acc)).trans ?_
    exact List.perm_middle.symm

theorem pySorted_perm (le : α → α → Bool) (l : List α) : (pySorted le l).Perm l := by
  simpa using foldl_insertLe_perm le l []

theorem mem_insertLe {le : α → α → Bool} {x a : α} {l : List α}
    (h : a ∈ insertLe le x l) : a = x ∨ a ∈ l :=
  List.mem_cons.mp ((insertLe_perm le x l).mem_iff.mp h)

theorem insertLe_pairwise {le : α → α → Bool}
    (htot : ∀ a b, le a b = true ∨ le b a = true)
    (htrans : ∀ a b c, le a b = true → le b c = true → le a c = true)
    (x : α) {l : List α} (hl : l.Pairwise (le · · = true)) :
    (insertLe le x l).Pairwise (le · · = true) := by
  induction l with
  | nil => simp [insertLe]
  | cons y ys ih =>
    obtain ⟨hy, hys⟩ := List.pairwise_cons.mp hl
    simp only [insertLe]
    by_cases h : le y x = true
    · rw [if_pos h]
      refine List.pairwise_cons.mpr ⟨?_, ih hys⟩
      intro z hz
      rcases mem_insertLe hz with hz | hz
      · subst hz; exact h
      · exact hy z hz
    · rw [if_neg h]
      have hxy : le x y = true := by
        rcases htot x y with ht | ht
        · exact ht
        · exact absurd ht h
      refine List.pairwise_cons.mpr ⟨?_, hl⟩
      intro z hz
      rcases List.mem_cons.mp hz with hz | hz
      · subst hz; exact hxy
      · exact htrans x y z hxy (hy z hz)

theorem pySorted_pairwise {le : α → α → Bool}
    (htot : ∀ a b, le a b = true ∨ le b a = true)
    (htrans : ∀ a b c, le a b = true → le b c = true → le a c = true)
    (l : List α) : (pySorted le l).Pairwise (le · · = true) := by
  have main : ∀ (t acc : List α), acc.Pairwise (le · · = true) →
      (t.foldl (fun a x => insertLe le x a) acc).Pairwise (le · · = true) := by
    intro t
    induction t with
    | nil => intro acc h; simpa using h
    | cons x ts ih =>
      intro acc h
      exact ih _ (insertLe_pairwise htot htrans x h)
  exact main l [] (List.Pairwise.nil)

/-- Two lists that are permutations of each other, both sorted by `le`, and
whose cross-pair ties are genuine equalities, are equal. -/
theorem eq_of_perm_of_pairwise {le : α → α → Bool} :
    ∀ {l₁ l₂ : List α}, l₁.Perm l₂ →
    l₁.Pairwise (le · · = true) → l₂.Pairwise (le · · = true) →
    (∀ a ∈ l₁, ∀ b ∈ l₂, le a b = true → le b a = true → a = b) →
    l₁ = l₂ := by
  intro l₁
  induction l₁ with
  | nil => intro l₂ hperm _ _ _; exact (hperm.nil_eq).symm ▸ rfl
  | cons a t₁ ih =>
    intro l₂ hperm h₁ h₂ hanti
    cases l₂ with
    | nil => exact absurd hperm.symm (by simp)
    | cons b t₂ =>
      have hab : a = b := by
        by_cases he : a = b
        · exact he
        · have ha2 : a ∈ b :: t₂ := hperm.mem_iff.mp (List.mem_cons_self a t₁)
          have hb1 : b ∈ a :: t₁ := hperm.symm.mem_iff.mp (List.mem_cons_self b t₂)
          have hat2 : a ∈ t₂ := by
            rcases List.mem_cons.mp ha2 with h | h
            · exact absurd h he
            · exact h
          have hbt1 : b ∈ t₁ := by
            rcases List.mem_cons.mp hb1 with h | h
            · exact absurd h.symm he
            · exact h
          have hba : le b a = true := (List.pairwise_cons.mp h₂).1 a hat2
          have hab' : le a b = true := (List.pairwise_cons.mp h₁).1 b hbt1
          exact hanti a (List.mem_cons_self a t₁) b (List.mem_cons_self b t₂) hab' hba
      subst hab
      have htail : t₁.Perm t₂ := hperm.cons_inv
      have := ih htail (List.pairwise_cons.mp h₁).2 (List.pairwise_cons.mp h₂).2
        (fun x hx y hy => hanti x (List.mem_cons_of_mem a hx) y (List.mem_cons_of_mem a hy))
      rw [this]

/-- Sorting two permutation-equal lists with a total transitive comparison
yields equal results, provided any tie between an element of one list and an
element of the other is an equality. -/
theorem pySorted_eq_of_perm {le : α → α → Bool}
    (htot : ∀ a b, le a b = true ∨ le b a = true)
    (htrans : ∀ a b c, le a b = true → le b c = true → le a c = true)
    {l₁ l₂ : List α} (hperm : l₁.Perm l₂)
    (hanti : ∀ a ∈ l₁, ∀ b ∈ l₂, le a b = true → le b a = true → a = b) :
    pySorted le l₁ = pySorted le l₂ := by
  refine eq_of_perm_of_pairwise
    (((pySorted_perm le l₁).trans hperm).trans (pySorted_perm le l₂).symm)
    (pySorted_pairwise htot htrans l₁) (pySorted_pairwise htot htrans l₂) ?_
  intro a ha b hb
  exact hanti a ((pySorted_perm le l₁).mem_iff.mp ha)
    b ((pySorted_perm le l₂).mem_iff.mp hb)

/-! ### Lexicographic tuple comparison (Python tuple `<=` on string keys) -/
theorem pyStrLt_asymm {a b : String} (h : pyStrLt a b = true) : pyStrLt b a = false :=
  charListLt_asymm h

theorem pyStrLt_trans {a b c : String} (h1 : pyStrLt a b = true)
    (h2 : pyStrLt b c = true) : pyStrLt a c = true :=
  charListLt_trans h1 h2

theorem pyStrLt_eq_of_not_lt {a b : String} (h1 : pyStrLt a b = false)
    (h2 : pyStrLt b a = false) : a = b :=
  strData_inj (charListLt_eq_of_not_lt h1 h2)

theorem strLexLe_total {leB : β → β → Bool}
    (htot : ∀ x y, leB x y = true ∨ leB y x = true) (p q : String × β) :
    strLexLe leB p q = true ∨ strLexLe leB q p = true := by
  unfold strLexLe
  by_cases h1 : pyStrLt p.1 q.1 = true
  · left; rw [if_pos h1]
  · by_cases h2 : pyStrLt q.1 p.1 = true
    · right; rw [if_pos h2]
    · rw [if_neg h1, if_neg h2, if_neg h2, if_neg h1]
      exact htot p.2 q.2

theorem pyStrLt_irrefl (a : String) : pyStrLt a a = false := by
  by_cases h : pyStrLt a a = true
  · have hfalse := pyStrLt_asymm h
    rw [hfalse] at h
    exact absurd h (by simp)
  · simpa using h

theorem strLexLe_trans {leB : β → β → Bool}
    (htrans : ∀ x y z, leB x y = true → leB y z = true → leB x z = true)
    {p q r : String × β} (h1 : strLexLe leB p q = true)
    (h2 : strLexLe leB q r = true) : strLexLe leB p r = true := by
  unfold strLexLe at h1 h2 ⊢
  by_cases hpq : pyStrLt p.1 q.1 = true
  · by_cases hqr : pyStrLt q.1 r.1 = true
    · rw [if_pos (pyStrLt_trans hpq hqr)]
    · by_cases hrq : pyStrLt r.1 q.1 = true
      · rw [if_neg hqr, if_pos hrq] at h2
        exact absurd h2 (by simp)
      · have : q.1 = r.1 := pyStrLt_eq_of_not_lt (by simpa using hqr) (by simpa using hrq)
        rw [if_pos (this ▸ hpq)]
  · by_cases hqp : pyStrLt q.1 p.1 = true
    · rw [if_neg hpq, if_pos hqp] at h1
      exact absurd h1 (by simp)
    · have hpq1 : p.1 = q.1 :=
        pyStrLt_eq_of_not_lt (by simpa using hpq) (by simpa using hqp)
      rw [if_neg hpq, if_neg hqp] at h1
      by_cases hqr : pyStrLt q.1 r.1 = true
      · rw [if_pos (hpq1 ▸ hqr)]
      · by_cases hrq : pyStrLt r.1 q.1 = true
        · rw [if_neg hqr, if_pos hrq] at h2
          exact absurd h2 (by simp)
        · have hqr1 : q.1 = r.1 :=
            pyStrLt_eq_of_not_lt (by simpa using hqr) (by simpa using hrq)
          rw [if_neg hqr, if_neg hrq] at h2
          rw [hpq1, hqr1]
          rw [if_neg (by simp [pyStrLt_irrefl]), if_neg (by simp [pyStrLt_irrefl])]
          exact htrans _ _ _ h1 h2

theorem strLexLe_antisymm {leB : β → β → Bool}
    (hanti : ∀ x y, leB x y = true → leB y x = true → x = y)
    {p q : String × β} (h1 : strLexLe leB p q = true)
    (h2 : strLexLe leB q p = true) : p = q := by
  unfold strLexLe at h1 h2
  by_cases hpq : pyStrLt p.1 q.1 = true
  · rw [if_neg (by simp [pyStrLt_asymm hpq]), if_pos hpq] at h2
    exact absurd h2 (by simp)
  · by_cases hqp : pyStrLt q.1 p.1 = true
    · rw [if_neg hpq, if_pos hqp] at h1
      exact absurd h1 (by simp)
    · have hfst : p.1 = q.1 :=
        pyStrLt_eq_of_not_lt (by simpa using hpq) (by simpa using hqp)
      rw [if_neg hpq, if_neg hqp] at h1
      rw [if_neg hqp, if_neg hpq] at h2
      have hsnd : p.2 = q.2 := hanti _ _ h1 h2
      exact Prod.ext hfst hsnd

namespace CompareRuns

theorem key4Le_total (a b : String × String × String × String) :
    key4Le a b = true ∨ key4Le b a = true := by
  unfold key4Le
  refine strLexLe_total ?_ a b
  intro x y
  refine strLexLe_total ?_ x y
  intro u v
  exact strLexLe_total pyStrLe_total u v

theorem key4Le_trans {a b c : String × String × String × String}
    (h1 : key4Le a b = true) (h2 : key4Le b c = true) : key4Le a c = true := by
  unfold key4Le at h1 h2 ⊢
  refine strLexLe_trans ?_ h1 h2
  intro x y z hx hy
  refine strLexLe_trans ?_ hx hy
  intro u v w hu hv
  refine strLexLe_trans ?_ hu hv
  intro s t r hs ht
  exact pyStrLe_trans hs ht

theorem key4Le_antisymm {a b : String × String × String × String}
    (h1 : key4Le a b = true) (h2 : key4Le b a = true) : a = b := by
  unfold key4Le at h1 h2
  refine strLexLe_antisymm ?_ h1 h2
  intro x y hx hy
  refine strLexLe_antisymm ?_ hx hy
  intro u v hu hv
  refine strLexLe_antisymm ?_ hu hv
  intro s t hs ht
  exact pyStrLe_antisymm hs ht

theorem canonLe_total (a b : CanonEl) : canonLe a b = true ∨ canonLe b a = true :=
  key4Le_total _ _

theorem canonLe_trans {a b c : CanonEl} (h1 : canonLe a b = true)
    (h2 : canonLe b c = true) : canonLe a c = true :=
  key4Le_trans h1 h2

theorem canonLe_key_eq {a b : CanonEl} (h1 : canonLe a b = true)
    (h2 : canonLe b a = true) : canonKey a = canonKey b :=
  key4Le_antisymm h1 h2

/-! ### Facts about the normalizer and comparators -/
theorem optJeq_symm (a b : Option JValue) : optJeq a b = optJeq b a := by
  cases a <;> cases b <;> simp only [optJeq]
  exact jeq_symm ..

theorem canonElBeq_symm (a b : CanonEl) : canonElBeq a b = canonElBeq b a := by
  unfold canonElBeq
  rw [optJeq_symm a.role b.role, optJeq_symm a.name b.name, optJeq_symm a.value b.value,
    optJeq_symm a.level b.level, optJeq_symm a.checked b.checked,
    optJeq_symm a.disabled b.disabled, optJeq_symm a.selected b.selected,
    optJeq_symm a.expanded b.expanded, optJeq_symm a.pressed b.pressed,
    optJeq_symm a.href b.href]

theorem canonListBeq_symm : ∀ (l₁ l₂ : List CanonEl), canonListBeq l₁ l₂ = canonListBeq l₂ l₁ := by
  intro l₁
  induction l₁ with
  | nil => intro l₂; cases l₂ <;> rfl
  | cons a t ih =>
    intro l₂
    cases l₂ with
    | nil => rfl
    | cons b t₂ => simp only [canonListBeq, canonElBeq_symm a b, ih t₂]

theorem optJeq_refl {o : Option JValue} (h : OptWF o) : optJeq o o = true := by
  cases o with
  | none => rfl
  | some v => exact jeq_refl v (h v rfl)

theorem canonElBeq_refl {e : CanonEl} (h : ElWF e) : canonElBeq e e = true := by
  obtain ⟨h1, h2, h3, h4, h5, h6, h7, h8, h9, h10⟩ := h
  simp only [canonElBeq, optJeq_refl h1, optJeq_refl h2, optJeq_refl h3, optJeq_refl h4,
    optJeq_refl h5, optJeq_refl h6, optJeq_refl h7, optJeq_refl h8, optJeq_refl h9,
    optJeq_refl h10, Bool.and_self]

theorem canonListBeq_refl : ∀ {l : List CanonEl}, (∀ e ∈ l, ElWF e) → canonListBeq l l = true := by
  intro l
  induction l with
  | nil => intro _; rfl
  | cons a t ih =>
    intro h
    simp only [canonListBeq, Bool.and_eq_true]
    exact ⟨canonElBeq_refl (h a (List.mem_cons_self a t)),
      ih fun e he => h e (List.mem_cons_of_mem a he)⟩

theorem lookupField_mem {fs : List (String × JValue)} {k : String} {w : JValue}
    (h : JValue.find?.lookupField fs k = some w) : ∃ p ∈ fs, p.2 = w := by
  induction fs with
  | nil => simp [JValue.find?.lookupField] at h
  | cons q qs ih =>
    obtain ⟨qk, qv⟩ := q
    simp only [JValue.find?.lookupField] at h
    by_cases hk : qk = k
    · rw [if_pos hk] at h
      exact ⟨(qk, qv), List.mem_cons_self _ _, by injection h⟩
    · rw [if_neg hk] at h
      obtain ⟨p, hp, hpw⟩ := ih h
      exact ⟨p, List.mem_cons_of_mem _ hp, hpw⟩

theorem nodup_obj_fields {fs : List (String × JValue)} (h : NodupKeys (.obj fs)) :
    ∀ p ∈ fs, NodupKeys p.2 := by
  cases h
  assumption

theorem nodup_find? {v w : JValue} {k : String} (h : NodupKeys v)
    (hf : v.find? k = some w) : NodupKeys w := by
  cases v <;> simp only [JValue.find?] at hf <;> try exact absurd hf (by simp)
  obtain ⟨p, hp, hpw⟩ := lookupField_mem hf
  exact hpw ▸ nodup_obj_fields h p hp

theorem nodup_empty_obj : NodupKeys (.obj []) :=
  NodupKeys.obj (by simp) (by simp)

theorem nodup_pyGet {v : JValue} (h : NodupKeys v) (k : String) :
    NodupKeys (v.pyGet k) := by
  unfold JValue.pyGet
  cases hf : v.find? k with
  | none => exact NodupKeys.null
  | some w => exact nodup_find? h hf

theorem nodup_pyGetD_emptyObj {v : JValue} (h : NodupKeys v) (k : String) :
    NodupKeys (v.pyGetD k (.obj [])) := by
  unfold JValue.pyGetD
  cases hf : v.find? k with
  | none => exact nodup_empty_obj
  | some w => exact nodup_find? h hf

theorem snapshotData_wf {sj : JValue} (h : NodupKeys sj) :
    NodupKeys (snapshotData sj) := by
  unfold snapshotData
  split
  · exact nodup_pyGet h "data"
  · exact h

theorem snapshotRefsVal_wf {sj : JValue} (h : NodupKeys sj) :
    NodupKeys (snapshotRefsVal sj) := by
  unfold snapshotRefsVal
  split
  · split
    · exact nodup_pyGetD_emptyObj (snapshotData_wf h) "refs"
    · exact nodup_empty_obj
  · exact nodup_empty_obj

theorem snapshotRefs_wf {sj : JValue} (h : NodupKeys sj) :
    ∀ p ∈ snapshotRefs sj, NodupKeys p.2 := by
  intro p hp
  unfold snapshotRefs at hp
  cases sj with
  | obj fs0 =>
    have hv := snapshotRefsVal_wf h
    cases hval : snapshotRefsVal (JValue.obj fs0) with
    | obj fs =>
      rw [hval] at hp
      exact nodup_obj_fields (hval ▸ hv) p hp
    | null => rw [hval] at hp; cases hp
    | bool b => rw [hval] at hp; cases hp
    | num n => rw [hval] at hp; cases hp
    | str s => rw [hval] at hp; cases hp
    | arr xs => rw [hval] at hp; cases hp
  | null => cases hp
  | bool b => cases hp
  | num n => cases hp
  | str s => cases hp
  | arr xs => cases hp

theorem elemOfInfo_wf {info : JValue} {e : CanonEl} (h : NodupKeys info)
    (he : elemOfInfo info = some e) : ElWF e := by
  cases info with
  | obj fs =>
    simp only [elemOfInfo] at he
    by_cases hc : (optTruthy (JValue.find?.lookupField fs "role")
        || optTruthy (JValue.find?.lookupField fs "name")) = true
    · rw [if_pos hc] at he
      have he' := Option.some.inj he
      subst he'
      have hfield : ∀ k, OptWF (JValue.find?.lookupField fs k) := by
        intro k v hv
        obtain ⟨p, hp, hpw⟩ := lookupField_mem hv
        exact hpw ▸ nodup_obj_fields h p hp
      exact ⟨hfield _, hfield _, hfield _, hfield _, hfield _, hfield _, hfield _,
        hfield _, hfield _, hfield _⟩
    · rw [if_neg hc] at he
      exact absurd he (by simp)
  | null => exact absurd he (by simp [elemOfInfo])
  | bool b => exact absurd he (by simp [elemOfInfo])
  | num n => exact absurd he (by simp [elemOfInfo])
  | str s => exact absurd he (by simp [elemOfInfo])
  | arr xs => exact absurd he (by simp [elemOfInfo])

theorem normalize_snapshot_wf {sj : JValue} (h : NodupKeys sj) :
    ∀ e ∈ normalize_snapshot sj, ElWF e := by
  intro e he
  have he' : e ∈ ((snapshotRefs sj).map Prod.snd).filterMap elemOfInfo :=
    (pySorted_perm canonLe _).mem_iff.mp he
  obtain ⟨a, ha, hae⟩ := List.mem_filterMap.mp he'
  obtain ⟨p, hp, hpa⟩ := List.mem_map.mp ha
  exact elemOfInfo_wf (hpa ▸ snapshotRefs_wf h p hp) hae

/-- Reordering log entries never changes their normalized form. -/
theorem normalize_entries_perm {l₁ l₂ : List JValue} (h : l₁.Perm l₂) :
    normalize_entries l₁ = normalize_entries l₂ := by
  unfold normalize_entries
  refine pySorted_eq_of_perm pyStrLe_total (fun _ _ _ => pyStrLe_trans) (h.map jdump) ?_
  intro a _ b _ h1 h2
  exact pyStrLe_antisymm h1 h2

/-- Permuting the `refs` values permutes the canonical elements. -/
theorem normalize_snapshot_perm {s₁ s₂ : JValue}
    (h : ((snapshotRefs s₁).map Prod.snd).Perm ((snapshotRefs s₂).map Prod.snd)) :
    (normalize_snapshot s₁).Perm (normalize_snapshot s₂) := by
  unfold normalize_snapshot
  refine ((pySorted_perm canonLe _).trans ?_).trans (pySorted_perm canonLe _).symm
  exact h.filterMap elemOfInfo

/-- Under the tie condition (elements agreeing on the sort key are equal),
permuting the `refs` values leaves the canonical element list unchanged. -/
theorem normalize_snapshot_eq_of_perm {s₁ s₂ : JValue}
    (h : ((snapshotRefs s₁).map Prod.snd).Perm ((snapshotRefs s₂).map Prod.snd))
    (hanti : ∀ e₁ ∈ normalize_snapshot s₁, ∀ e₂ ∈ normalize_snapshot s₂,
      canonKey e₁ = canonKey e₂ → e₁ = e₂) :
    normalize_snapshot s₁ = normalize_snapshot s₂ := by
  unfold normalize_snapshot
  refine pySorted_eq_of_perm canonLe_total (fun _ _ _ => canonLe_trans)
    (h.filterMap elemOfInfo) ?_
  intro a ha b hb h1 h2
  refine hanti a ?_ b ?_ (canonLe_key_eq h1 h2)
  · exact (pySorted_perm canonLe _).mem_iff.mpr ha
  · exact (pySorted_perm canonLe _).mem_iff.mpr hb

end CompareRuns

/-! ## Helper lemmas for the claim theorems -/
theorem nodupKeysB_sound : ∀ (f : Nat) (v : JValue), nodupKeysB f v = true → NodupKeys v := by
  intro f
  induction f with
  | zero => intro v h; exact absurd h (by simp [nodupKeysB])
  | succ f ih =>
    intro v h
    cases v with
    | null => exact NodupKeys.null
    | bool b => exact NodupKeys.bool b
    | num n => exact NodupKeys.num n
    | str s => exact NodupKeys.str s
    | arr xs =>
      simp only [nodupKeysB, List.all_eq_true] at h
      exact NodupKeys.arr fun x hx => ih x (h x hx)
    | obj fs =>
      simp only [nodupKeysB, Bool.and_eq_true, decide_eq_true_eq, List.all_eq_true] at h
      exact NodupKeys.obj h.1 fun p hp => ih p.2 (h.2 p hp)

theorem filter_isEmpty_eq_not_any {α : Type} (p : α → Bool) (l : List α) :
    (l.filter p).isEmpty = !l.any p := by
  induction l with
  | nil => rfl
  | cons a t ih =>
    by_cases h : p a = true
    · simp [List.filter_cons, List.any_cons, h]
    · simp only [Bool.not_eq_true] at h
      simp [List.filter_cons, List.any_cons, h, ih]

theorem list_any_congr_of_mem {α : Type} {p q : α → Bool} {l : List α}
    (h : ∀ x ∈ l, p x = q x) : l.any p = l.any q := by
  induction l with
  | nil => rfl
  | cons a t ih =>
    simp only [List.any_cons]
    rw [h a (List.mem_cons_self a t), ih fun x hx => h x (List.mem_cons_of_mem a hx)]

theorem list_diff_self {α : Type} [DecidableEq α] (l : List α) : l.diff l = [] := by
  have h : ((l.diff l : List α) : Multiset α) = 0 := by
    rw [← Multiset.coe_sub]
    simp
  exact (Multiset.coe_eq_zero _).mp h

theorem extract_snapshot_payload_wf {v : JValue} (h : NodupKeys v) :
    CompareRuns.OptWF (CompareRuns.extract_snapshot_payload v).1 := by
  unfold CompareRuns.extract_snapshot_payload
  split
  · intro w hw; cases hw
  · split
    · intro w hw; cases hw
    · split
      · intro w hw; cases hw
      · split
        · split
          · intro w hw
            injection hw with hw
            exact hw ▸ CompareRuns.nodup_pyGet h "parsed"
          · intro w hw; cases hw
        · split
          · intro w hw
            injection hw with hw
            exact hw ▸ h
          · split
            · intro w hw
              injection hw with hw
              exact hw ▸ h
            · intro w hw; cases hw

theorem payloadOrEmpty_wf {o : Option JValue} (h : CompareRuns.OptWF o) :
    NodupKeys (CompareRuns.payloadOrEmpty o) := by
  cases o with
  | none => exact CompareRuns.nodup_empty_obj
  | some v =>
    simp only [CompareRuns.payloadOrEmpty]
    split
    · exact h v rfl
    · exact CompareRuns.nodup_empty_obj

theorem find?_append_first {α : Type} {p : α → Bool} {cp : α} :
    ∀ {l₁ : List α} (l₂ : List α), p cp = true → (∀ c ∈ l₁, p c = false) →
    List.find? p (l₁ ++ cp :: l₂) = some cp := by
  intro l₁
  induction l₁ with
  | nil =>
    intro l₂ hcp _
    simp [List.find?_cons, hcp]
  | cons c cs ih =>
    intro l₂ hcp hpre
    have hc : p c = false := hpre c (List.mem_cons_self c cs)
    simp only [List.cons_append, List.find?_cons, hc]
    exact ih l₂ hcp fun x hx => hpre x (List.mem_cons_of_mem c hx)

/-- C2 (amended): when a run holds several checkpoints with the same name,
the Assertion Judge's lookup by that name returns the FIRST checkpoint
captured with it — the match loop scans the list front to back (the
compare-runs name index, built by dict comprehension, is last-write-wins
instead). -/
theorem C2_judge_checkpoint_lookup_first_wins
    (pre post : List JudgeIntent.Checkpoint) (cp : JudgeIntent.Checkpoint)
    (n : String) (dsl : List JudgeIntent.DslAssertion)
    (hn : n ≠ "") (hcp : cp.name = some n) (hpre : ∀ c ∈ pre, c.name ≠ some n) :
    JudgeIntent.get_checkpoint ⟨pre ++ cp :: post, dsl⟩ (some n) = some cp := by
  unfold JudgeIntent.get_checkpoint
  have hne : (pre ++ cp :: post).isEmpty = false := by
    cases pre <;> simp
  have ht : strOptTruthy (some n) = true := by
    simp [strOptTruthy, hn]
  simp only [hne, ht, Bool.false_eq_true, if_false, if_true]
  refine find?_append_first post ?_ ?_
  · simp [hcp]
  · intro c hc
    have := hpre c hc
    simp only [beq_eq_false_iff_ne, ne_eq]
    exact this

/-- C2 (counterexample): a run captures two checkpoints named `cp`; the
judge's lookup returns the first of them, not the last one captured with
that name, refuting the claim's last-write-wins reading for the judge. -/
theorem C2_counterexample :
    JudgeIntent.get_checkpoint runDup (some "cp") = some cpDupA
    ∧ runDup.checkpoints.getLast? = some cpDupB
    ∧ cpDupB.name = some "cp"
    ∧ cpDupA ≠ cpDupB := by
  refine ⟨by decide, by decide, by decide, by decide⟩

/-- C2 (witness): the amended first-match rule at a concrete duplicate-name
run. -/
theorem C2_witness :
    JudgeIntent.get_checkpoint
      ⟨[⟨some "other", none, []⟩] ++ cpDupA :: [cpDupB], []⟩ (some "cp") = some cpDupA :=
  C2_judge_checkpoint_lookup_first_wins [⟨some "other", none, []⟩] [cpDupB] cpDupA "cp" []
    (by decide) (by rfl) (by decide)

/-- C10: a `no_console_errors` assertion whose referenced checkpoint exists
but whose errors artifact is absent (no path, an empty path, or a path whose
file is missing or unparseable) evaluates to status PASS with `passed`:
the entry count of the missing evidence is zero, indistinguishable from an
empty error log. -/
theorem C10_no_console_errors_missing_evidence
    (fs : String → Option JValue) (ya : Bool) (yl : String → Except String JValue)
    (a : JudgeIntent.Assertion) (run : JudgeIntent.Run) (cp : JudgeIntent.Checkpoint)
    (htype : a.type = some "no_console_errors")
    (hcp : JudgeIntent.get_checkpoint run a.checkpoint = some cp)
    (hmiss : cp.artifacts.lookup "errors" = none
      ∨ ∃ p, cp.artifacts.lookup "errors" = some p ∧ (p = "" ∨ fs p = none)) :
    (JudgeIntent.evaluate_assertion fs ya yl a run).status = "PASS"
    ∧ (JudgeIntent.evaluate_assertion fs ya yl a run).passed = true := by
  have hload : JudgeIntent.load_artifact fs (cp.artifacts.lookup "errors") = none := by
    rcases hmiss with h | ⟨p, hp, hv⟩
    · rw [h]; rfl
    · rw [hp]
      rcases hv with hv | hv
      · simp [JudgeIntent.load_artifact, hv]
      · simp [JudgeIntent.load_artifact, hv]
  unfold JudgeIntent.evaluate_assertion
  rw [hcp]
  simp only [htype, hload]
  refine ⟨?_, ?_⟩ <;> (rw [if_neg (by decide), if_neg (by decide)]; rfl)

/-- C10 (witness): a concrete `no_console_errors` assertion whose checkpoint
has no errors artifact at all, over an empty filesystem. -/
theorem C10_witness :
    (JudgeIntent.evaluate_assertion fsEmpty true ylStub nceAssertion runDup).status = "PASS"
    ∧ (JudgeIntent.evaluate_assertion fsEmpty true ylStub nceAssertion runDup).passed = true :=
  C10_no_console_errors_missing_evidence fsEmpty true ylStub nceAssertion runDup cpDupA
    (by rfl) (by decide) (Or.inl (by decide))

/-- C8: for every manifest object whose `environment` is an object with a
missing or falsy `base_url` — whatever the state of every other field —
`validate_manifest` returns a list containing the message identifying
`environment.base_url`; validation does not stop at earlier failures. -/
theorem C8_validate_base_url_required (fields efields : List (String × JValue))
    (henv : JValue.find?.lookupField fields "environment" = some (.obj efields))
    (hbase : ((JValue.obj efields).pyGet "base_url").truthy = false) :
    "environment.base_url is required" ∈ Manifest.validate_manifest (.obj fields) := by
  have henv' : (JValue.obj fields).pyGet "environment" = .obj efields := by
    simp [JValue.pyGet, JValue.find?, henv]
  have hseg : Manifest.envErrors (.obj fields) = ["environment.base_url is required"] := by
    simp [Manifest.envErrors, henv', hbase, JValue.isObj]
  simp [Manifest.validate_manifest, hseg, List.mem_append]

/-- C8 (witness): the `environment.base_url` message is reported for a
manifest whose every other section is invalid. -/
theorem C8_witness :
    "environment.base_url is required" ∈ Manifest.validate_manifest manifestNoBaseUrl :=
  C8_validate_base_url_required
    [("issue", .str "notadict"), ("environment", .obj [("base_url", .str "")]),
     ("strategy", .num 3), ("steps", .arr []), ("assertions", .num 1),
     ("adr", .arr [.num 2])]
    [("base_url", .str "")] (by rfl) (by rfl)

theorem sortedSet_eq_nil_iff (xs : List String) : Collectors.sortedSet xs = [] ↔ xs = [] := by
  unfold Collectors.sortedSet
  constructor
  · intro h
    have hperm := pySorted_perm pyStrLe xs.dedup
    rw [h] at hperm
    exact (List.dedup_eq_nil xs).mp hperm.nil_eq.symm
  · intro h
    subst h
    rfl

/-- C7: `analyze_ai_output` reports a leak exactly where a pattern matches —
`raw_in_final_answer` iff some compilable raw-value pattern matches inside
the final answer, `raw_in_tool_payload` iff one matches inside the tool
payload, and a label term is reported iff it is a nonempty case-insensitive
substring of the final answer; in particular `hg:[a-z]+` matching only
inside the tool payload yields `raw_in_final_answer = false`,
`raw_in_tool_payload = true` (with the matched substring listed). -/
theorem C7_analyze_ai_output_leak_location :
    (∀ (final tool : String) (ps : List RePat) (labels : List String),
      ((Collectors.analyze_ai_output final tool ps labels).raw_in_final_answer = true
        ↔ ∃ p ∈ ps, p.compiles = true ∧ p.findall final ≠ [])
      ∧ ((Collectors.analyze_ai_output final tool ps labels).raw_in_tool_payload = true
        ↔ ∃ p ∈ ps, p.compiles = true ∧ p.findall tool ≠ [])
      ∧ (∀ t, (t ∈ (Collectors.analyze_ai_output final tool ps
            labels).label_terms_present_in_final_answer
        ↔ t ∈ labels ∧ t ≠ "" ∧ pyInStr (pyLower t) (pyLower final) = true)))
    ∧ (Collectors.analyze_ai_output "Use legal tone" "\x7b\"tone\":\"hg:legal\"\x7d"
        [hgPattern] []).raw_in_final_answer = false
    ∧ (Collectors.analyze_ai_output "Use legal tone" "\x7b\"tone\":\"hg:legal\"\x7d"
        [hgPattern] []).raw_in_tool_payload = true
    ∧ (Collectors.analyze_ai_output "Use legal tone" "\x7b\"tone\":\"hg:legal\"\x7d"
        [hgPattern] []).raw_matches_tool_payload = ["hg:legal"] := by
  refine ⟨?_, by decide, by decide, by decide⟩
  intro final tool ps labels
  have main : ∀ (s : String),
      (!(Collectors.sortedSet
          ((Collectors.compilePatterns ps).map fun p => p.findall s).flatten).isEmpty) = true
      ↔ ∃ p ∈ ps, p.compiles = true ∧ p.findall s ≠ [] := by
    intro s
    have hchain : (Collectors.sortedSet
        ((Collectors.compilePatterns ps).map fun p => p.findall s).flatten).isEmpty = true
        ↔ ∀ p ∈ ps, p.compiles = true → p.findall s = [] := by
      rw [List.isEmpty_iff, sortedSet_eq_nil_iff, List.flatten_eq_nil_iff]
      constructor
      · intro h p hp hc
        exact h (p.findall s) (List.mem_map.mpr ⟨p, List.mem_filter.mpr ⟨hp, hc⟩, rfl⟩)
      · intro h l hl
        obtain ⟨p, hp, rfl⟩ := List.mem_map.mp hl
        exact h p (List.mem_filter.mp hp).1 (List.mem_filter.mp hp).2
    constructor
    · intro h
      by_contra hno
      push_neg at hno
      rw [hchain.mpr hno] at h
      exact absurd h (by simp)
    · rintro ⟨p, hp, hc, hne⟩
      by_contra h
      simp only [Bool.not_eq_true, Bool.not_eq_false'] at h
      exact hne (hchain.mp h p hp hc)
  refine ⟨main final, main tool, ?_⟩
  intro t
  simp only [Collectors.analyze_ai_output, List.mem_filter, Bool.and_eq_true,
    decide_eq_true_eq]

/-- C6: log comparison is invariant under reordering — whenever the two log
files' extracted entry lists are permutations of each other (and neither
side reports a format error), `compare_logs` reports `same = true`, because
each entry is serialized with key-sorted `json.dumps` and the serialized
lists are sorted before the equality comparison. -/
theorem C6_compare_logs_reorder_invariant (base_raw mod_raw : JValue) (bp mp : String)
    (hb : (CompareRuns.extract_log_entries base_raw).2 = none)
    (hm : (CompareRuns.extract_log_entries mod_raw).2 = none)
    (hperm : (CompareRuns.extract_log_entries base_raw).1.Perm
      (CompareRuns.extract_log_entries mod_raw).1) :
    (CompareRuns.compare_logs base_raw mod_raw bp mp).same = true := by
  unfold CompareRuns.compare_logs
  dsimp only
  rw [hb, hm]
  simp only [strOptTruthy, Bool.or_self, Bool.false_eq_true, if_false]
  simp only [CompareRuns.normalize_entries_perm hperm, decide_eq_true_eq]

/-- C6 (witness): two concrete console-log files whose two entries appear in
opposite order compare as `same = true`. -/
theorem C6_witness :
    (CompareRuns.compare_logs logFileA logFileB "baseline/a.console.json"
      "modified/a.console.json").same = true :=
  C6_compare_logs_reorder_invariant logFileA logFileB "baseline/a.console.json"
    "modified/a.console.json" (by rfl) (by rfl)
    (List.Perm.swap logEntry2 logEntry1 [])

/-- C9: when either snapshot file fails to parse, or either parsed file has
an unrecognized payload shape, `compare_snapshots` reports `same = false`
with empty added/removed lists, zero counts, no diff lines, and an explicit
error field carrying the parse errors (when a parse failed) or the format
errors (otherwise) — the offending side's message in its slot; it never
falls through to comparing empty element lists. -/
theorem C9_compare_snapshots_error_path (fs : String → CompareRuns.LoadRes)
    (bp mp : String)
    (hbad : strOptTruthy (fs bp).err = true ∨ strOptTruthy (fs mp).err = true
      ∨ strOptTruthy (CompareRuns.extract_snapshot_payload (fs bp).val).2 = true
      ∨ strOptTruthy (CompareRuns.extract_snapshot_payload (fs mp).val).2 = true) :
    (CompareRuns.compare_snapshots fs bp mp).same = false
    ∧ (CompareRuns.compare_snapshots fs bp mp).changes.added = []
    ∧ (CompareRuns.compare_snapshots fs bp mp).changes.removed = []
    ∧ (CompareRuns.compare_snapshots fs bp mp).changes.added_count = 0
    ∧ (CompareRuns.compare_snapshots fs bp mp).changes.removed_count = 0
    ∧ (CompareRuns.compare_snapshots fs bp mp).diff_lines = []
    ∧ (CompareRuns.compare_snapshots fs bp mp).errorField.isSome = true
    ∧ ((strOptTruthy (fs bp).err = true ∨ strOptTruthy (fs mp).err = true) →
        (CompareRuns.compare_snapshots fs bp mp).errorField = some ((fs bp).err, (fs mp).err)
        ∧ (CompareRuns.compare_snapshots fs bp mp).baseline.error = (fs bp).err
        ∧ (CompareRuns.compare_snapshots fs bp mp).modified.error = (fs mp).err)
    ∧ (strOptTruthy (fs bp).err = false → strOptTruthy (fs mp).err = false →
        (CompareRuns.compare_snapshots fs bp mp).errorField
          = some ((CompareRuns.extract_snapshot_payload (fs bp).val).2,
            (CompareRuns.extract_snapshot_payload (fs mp).val).2)
        ∧ (CompareRuns.compare_snapshots fs bp mp).baseline.error
          = (CompareRuns.extract_snapshot_payload (fs bp).val).2
        ∧ (CompareRuns.compare_snapshots fs bp mp).modified.error
          = (CompareRuns.extract_snapshot_payload (fs mp).val).2) := by
  unfold CompareRuns.compare_snapshots
  dsimp only
  by_cases hparse : (strOptTruthy (fs bp).err || strOptTruthy (fs mp).err) = true
  · rw [if_pos hparse]
    refine ⟨rfl, rfl, rfl, rfl, rfl, rfl, rfl, fun _ => ⟨rfl, rfl, rfl⟩, ?_⟩
    intro h1 h2
    rw [h1, h2] at hparse
    exact absurd hparse (by simp)
  · rw [if_neg hparse]
    have hpf : (strOptTruthy (fs bp).err || strOptTruthy (fs mp).err) = false :=
      Bool.eq_false_iff.mpr hparse
    have h1 := (Bool.or_eq_false_iff.mp hpf).1
    have h2 := (Bool.or_eq_false_iff.mp hpf).2
    have hext : (strOptTruthy (CompareRuns.extract_snapshot_payload (fs bp).val).2
        || strOptTruthy (CompareRuns.extract_snapshot_payload (fs mp).val).2) = true := by
      simp only [Bool.or_eq_true]
      rcases hbad with h | h | h | h
      · rw [h] at h1; exact absurd h1 (by simp)
      · rw [h] at h2; exact absurd h2 (by simp)
      · exact Or.inl h
      · exact Or.inr h
    rw [if_pos hext]
    refine ⟨rfl, rfl, rfl, rfl, rfl, rfl, rfl, ?_, fun _ _ => ⟨rfl, rfl, rfl⟩⟩
    intro h
    rcases h with h | h
    · rw [h] at h1; exact absurd h1 (by simp)
    · rw [h] at h2; exact absurd h2 (by simp)

/-- C9 (witness): an unparseable baseline snapshot file yields the explicit
error result. -/
theorem C9_witness :
    (CompareRuns.compare_snapshots fsBroken "bad.json" "good.json").same = false
    ∧ (CompareRuns.compare_snapshots fsBroken "bad.json" "good.json").changes.added_count = 0
    ∧ (CompareRuns.compare_snapshots fsBroken "bad.json" "good.json").errorField
      = some (some "failed to parse JSON: Expecting value", none) := by
  have h := C9_compare_snapshots_error_path fsBroken "bad.json" "good.json"
    (Or.inl (by decide))
  exact ⟨h.1, h.2.2.2.1, (h.2.2.2.2.2.2.2.1 (Or.inl (by decide))).1⟩

theorem lawful_beq_unique {α : Type} (i1 i2 : BEq α) (h1 : @LawfulBEq α i1)
    (h2 : @LawfulBEq α i2) (a b : α) : (@BEq.beq _ i1 a b) = (@BEq.beq _ i2 a b) := by
  by_cases h : a = b
  · subst h
    rw [@LawfulBEq.rfl _ i1 h1, @LawfulBEq.rfl _ i2 h2]
  · rw [(@beq_eq_false_iff_ne _ i1 h1 a b).mpr h, (@beq_eq_false_iff_ne _ i2 h2 a b).mpr h]

theorem erase_beq_irrel {α : Type} (i1 i2 : BEq α) (h1 : @LawfulBEq α i1)
    (h2 : @LawfulBEq α i2) (l : List α) (a : α) :
    @List.erase _ i1 l a = @List.erase _ i2 l a := by
  induction l with
  | nil => rfl
  | cons b t ih =>
    rw [@List.erase_cons _ i1, @List.erase_cons _ i2,
      lawful_beq_unique i1 i2 h1 h2 b a, ih]

theorem diff_beq_irrel {α : Type} (i1 i2 : BEq α) (h1 : @LawfulBEq α i1)
    (h2 : @LawfulBEq α i2) : ∀ (l₂ l₁ : List α),
    @List.diff _ i1 l₁ l₂ = @List.diff _ i2 l₁ l₂ := by
  intro l₂
  induction l₂ with
  | nil => intro l₁; rw [@List.diff_nil _ i1, @List.diff_nil _ i2]
  | cons a t ih =>
    intro l₁
    rw [@List.diff_cons _ i1, @List.diff_cons _ i2, erase_beq_irrel i1 i2 h1 h2, ih]

/-- C5: the added/removed view has exact Counter (multiset) semantics over
`(role, name)` keys — `added_count`/`removed_count` are the cardinalities of
the multiset differences modified−baseline and baseline−modified of the
normalized key multisets (duplicates counted, not deduplicated); on the
spec's concrete example (baseline two `link`/`A` elements, modified one)
`removed_count = 1`, `added_count = 0`, `same = false`. -/
theorem C5_multiset_diff_counts (fs : String → CompareRuns.LoadRes) (bp mp : String)
    (hbp : strOptTruthy (fs bp).err = false)
    (hmp : strOptTruthy (fs mp).err = false)
    (hbe : strOptTruthy (CompareRuns.extract_snapshot_payload (fs bp).val).2 = false)
    (hme : strOptTruthy (CompareRuns.extract_snapshot_payload (fs mp).val).2 = false) :
    ((CompareRuns.compare_snapshots fs bp mp).changes.added_count
      = Multiset.card
        ((CompareRuns.snapKeys (CompareRuns.extract_snapshot_payload (fs mp).val).1
            : Multiset (String × String))
          - (CompareRuns.snapKeys (CompareRuns.extract_snapshot_payload (fs bp).val).1
            : Multiset (String × String)))
    ∧ (CompareRuns.compare_snapshots fs bp mp).changes.removed_count
      = Multiset.card
        ((CompareRuns.snapKeys (CompareRuns.extract_snapshot_payload (fs bp).val).1
            : Multiset (String × String))
          - (CompareRuns.snapKeys (CompareRuns.extract_snapshot_payload (fs mp).val).1
            : Multiset (String × String))))
    ∧ (CompareRuns.compare_snapshots fsPair "base.json" "mod.json").changes.removed_count = 1
    ∧ (CompareRuns.compare_snapshots fsPair "base.json" "mod.json").changes.added_count = 0
    ∧ (CompareRuns.compare_snapshots fsPair "base.json" "mod.json").same = false := by
  refine ⟨?_, by decide, by decide, by decide⟩
  unfold CompareRuns.compare_snapshots
  dsimp only
  rw [if_neg (by rw [hbp, hmp]; simp), if_neg (by rw [hbe, hme]; simp)]
  constructor
  · rw [Multiset.coe_sub, Multiset.coe_card]
    simp only [CompareRuns.snapKeys]
    rw [diff_beq_irrel instBEqProd instBEqOfDecidableEq inferInstance lawfulBEqOfDecidableEq]
  · rw [Multiset.coe_sub, Multiset.coe_card]
    simp only [CompareRuns.snapKeys]
    rw [diff_beq_irrel instBEqProd instBEqOfDecidableEq inferInstance lawfulBEqOfDecidableEq]

/-- C5 (witness): the general multiset-count identity applied at the
concrete pair of snapshot files. -/
theorem C5_witness :
    (CompareRuns.compare_snapshots fsPair "base.json" "mod.json").changes.removed_count
      = Multiset.card
        ((CompareRuns.snapKeys
            (CompareRuns.extract_snapshot_payload (fsPair "base.json").val).1
            : Multiset (String × String))
          - (CompareRuns.snapKeys
            (CompareRuns.extract_snapshot_payload (fsPair "mod.json").val).1
            : Multiset (String × String))) :=
  (C5_multiset_diff_counts fsPair "base.json" "mod.json"
    (by decide) (by decide) (by decide) (by decide)).1.2

/-- C4: comparing a well-formed snapshot file with itself yields
`same = true` with empty added/removed lists, zero counts, and no diff
lines; and for any two files, `same`, and the added/removed views, are
symmetric — `compare(p, q).same = compare(q, p).same` with the added and
removed multisets swapped between the two directions. -/
theorem C4_compare_snapshots_refl_symm (fs : String → CompareRuns.LoadRes) (p q : String)
    (hwf : NodupKeys (fs p).val)
    (hperr : (fs p).err = none)
    (hex : strOptTruthy (CompareRuns.extract_snapshot_payload (fs p).val).2 = false) :
    ((CompareRuns.compare_snapshots fs p p).same = true
      ∧ (CompareRuns.compare_snapshots fs p p).changes.added = []
      ∧ (CompareRuns.compare_snapshots fs p p).changes.removed = []
      ∧ (CompareRuns.compare_snapshots fs p p).changes.added_count = 0
      ∧ (CompareRuns.compare_snapshots fs p p).changes.removed_count = 0
      ∧ (CompareRuns.compare_snapshots fs p p).diff_lines = [])
    ∧ ((CompareRuns.compare_snapshots fs p q).same
        = (CompareRuns.compare_snapshots fs q p).same
      ∧ (CompareRuns.compare_snapshots fs p q).changes.added
        = (CompareRuns.compare_snapshots fs q p).changes.removed
      ∧ (CompareRuns.compare_snapshots fs p q).changes.removed
        = (CompareRuns.compare_snapshots fs q p).changes.added) := by
  constructor
  · unfold CompareRuns.compare_snapshots
    dsimp only
    rw [if_neg (by rw [hperr]; simp [strOptTruthy]), if_neg (by rw [hex]; simp)]
    have hsame : CompareRuns.canonListBeq
        (CompareRuns.normalize_snapshot
          (CompareRuns.payloadOrEmpty (CompareRuns.extract_snapshot_payload (fs p).val).1))
        (CompareRuns.normalize_snapshot
          (CompareRuns.payloadOrEmpty (CompareRuns.extract_snapshot_payload (fs p).val).1))
        = true :=
      CompareRuns.canonListBeq_refl
        (CompareRuns.normalize_snapshot_wf (payloadOrEmpty_wf (extract_snapshot_payload_wf hwf)))
    refine ⟨hsame, ?_, ?_, ?_, ?_, ?_⟩
    · dsimp only
      rw [diff_beq_irrel instBEqProd instBEqOfDecidableEq inferInstance lawfulBEqOfDecidableEq,
        list_diff_self]
      rfl
    · dsimp only
      rw [diff_beq_irrel instBEqProd instBEqOfDecidableEq inferInstance lawfulBEqOfDecidableEq,
        list_diff_self]
      rfl
    · dsimp only
      rw [diff_beq_irrel instBEqProd instBEqOfDecidableEq inferInstance lawfulBEqOfDecidableEq,
        list_diff_self]
      rfl
    · dsimp only
      rw [diff_beq_irrel instBEqProd instBEqOfDecidableEq inferInstance lawfulBEqOfDecidableEq,
        list_diff_self]
      rfl
    · dsimp only
      rw [hsame]
      rfl
  · unfold CompareRuns.compare_snapshots
    dsimp only
    by_cases hc : (strOptTruthy (fs p).err || strOptTruthy (fs q).err) = true
    · have hc' : (strOptTruthy (fs q).err || strOptTruthy (fs p).err) = true := by
        rw [Bool.or_comm]; exact hc
      simp only [hc, hc', if_true]
      exact ⟨trivial, trivial, trivial⟩
    · have hcf : (strOptTruthy (fs p).err || strOptTruthy (fs q).err) = false :=
        Bool.eq_false_iff.mpr hc
      have hcf' : (strOptTruthy (fs q).err || strOptTruthy (fs p).err) = false := by
        rw [Bool.or_comm]; exact hcf
      simp only [hcf, hcf', Bool.false_eq_true, if_false]
      by_cases hc2 : (strOptTruthy (CompareRuns.extract_snapshot_payload (fs p).val).2
          || strOptTruthy (CompareRuns.extract_snapshot_payload (fs q).val).2) = true
      · have hc2' : (strOptTruthy (CompareRuns.extract_snapshot_payload (fs q).val).2
            || strOptTruthy (CompareRuns.extract_snapshot_payload (fs p).val).2) = true := by
          rw [Bool.or_comm]; exact hc2
        simp only [hc2, hc2', if_true]
        exact ⟨trivial, trivial, trivial⟩
      · have hc2f : (strOptTruthy (CompareRuns.extract_snapshot_payload (fs p).val).2
            || strOptTruthy (CompareRuns.extract_snapshot_payload (fs q).val).2) = false :=
          Bool.eq_false_iff.mpr hc2
        have hc2f' : (strOptTruthy (CompareRuns.extract_snapshot_payload (fs q).val).2
            || strOptTruthy (CompareRuns.extract_snapshot_payload (fs p).val).2) = false := by
          rw [Bool.or_comm]; exact hc2f
        simp only [hc2f, hc2f', Bool.false_eq_true, if_false]
        exact ⟨CompareRuns.canonListBeq_symm .., trivial, trivial⟩

/-- C4 (witness): the reflexivity and symmetry facts at a concrete pair of
snapshot files. -/
theorem C4_witness :
    (CompareRuns.compare_snapshots fsPair "base.json" "base.json").same = true
    ∧ (CompareRuns.compare_snapshots fsPair "base.json" "mod.json").same
      = (CompareRuns.compare_snapshots fsPair "mod.json" "base.json").same := by
  have h := C4_compare_snapshots_refl_symm fsPair "base.json" "mod.json"
    (nodupKeysB_sound 10 _ (by decide)) (by decide) (by decide)
  exact ⟨h.1.1, h.2.1⟩

/-- C3 (counterexample): two refs maps holding the same multiset of
element-info dicts (a level-2 and a level-3 heading) under renumbered keys
and opposite insertion orders normalize to different canonical lists — the
sort key `(role, name, value, href)` ignores `level`, the sort is stable, so
insertion order leaks through — and comparing the two snapshots yields
`same = false`, refuting the claimed determinism. -/
theorem C3_counterexample :
    ((CompareRuns.snapshotRefs snapH23).map Prod.snd).Perm
      ((CompareRuns.snapshotRefs snapH32).map Prod.snd)
    ∧ CompareRuns.canonListBeq (CompareRuns.normalize_snapshot snapH23)
        (CompareRuns.normalize_snapshot snapH32) = false
    ∧ (CompareRuns.compare_snapshots fsPerm "a.json" "b.json").same = false := by
  refine ⟨?_, by decide, by decide⟩
  have h1 : (CompareRuns.snapshotRefs snapH23).map Prod.snd = [infoH2, infoH3] := rfl
  have h2 : (CompareRuns.snapshotRefs snapH32).map Prod.snd = [infoH3, infoH2] := rfl
  rw [h1, h2]
  exact List.Perm.swap infoH3 infoH2 []

/-- C3 (amended): renumbering the refs keys and permuting the insertion
order always leaves the canonical element list unchanged *as a multiset*;
the list itself (and hence `same = true`) is unchanged provided elements
agreeing on the sort key `(role, name, value, href)` are equal element dicts
(the stable sort orders tied elements by insertion order, so keys outside
the sort key, such as `level`, may otherwise leak the order). -/
theorem C3_normalize_deterministic_amended (s₁ s₂ : JValue)
    (hperm : ((CompareRuns.snapshotRefs s₁).map Prod.snd).Perm
      ((CompareRuns.snapshotRefs s₂).map Prod.snd))
    (hwf : NodupKeys s₁)
    (hties : ∀ e₁ ∈ CompareRuns.normalize_snapshot s₁,
      ∀ e₂ ∈ CompareRuns.normalize_snapshot s₂,
      CompareRuns.canonKey e₁ = CompareRuns.canonKey e₂ → e₁ = e₂) :
    (CompareRuns.normalize_snapshot s₁).Perm (CompareRuns.normalize_snapshot s₂)
    ∧ CompareRuns.normalize_snapshot s₁ = CompareRuns.normalize_snapshot s₂
    ∧ CompareRuns.canonListBeq (CompareRuns.normalize_snapshot s₁)
        (CompareRuns.normalize_snapshot s₂) = true := by
  have heq := CompareRuns.normalize_snapshot_eq_of_perm hperm hties
  refine ⟨CompareRuns.normalize_snapshot_perm hperm, heq, ?_⟩
  rw [← heq]
  exact CompareRuns.canonListBeq_refl (CompareRuns.normalize_snapshot_wf hwf)

/-- C3 (witness): the amended determinism at two concrete snapshots whose
single refs entry is stored under different keys. -/
theorem C3_witness :
    CompareRuns.normalize_snapshot snapSingle1 = CompareRuns.normalize_snapshot snapSingle2
    ∧ CompareRuns.canonListBeq (CompareRuns.normalize_snapshot snapSingle1)
        (CompareRuns.normalize_snapshot snapSingle2) = true := by
  have h := C3_normalize_deterministic_amended snapSingle1 snapSingle2 ?_ ?_ ?_
  · exact ⟨h.2.1, h.2.2⟩
  · have h1 : (CompareRuns.snapshotRefs snapSingle1).map Prod.snd = [infoH2] := rfl
    have h2 : (CompareRuns.snapshotRefs snapSingle2).map Prod.snd = [infoH2] := rfl
    rw [h1, h2]
  · exact nodupKeysB_sound 10 _ (by decide)
  · intro e₁ h₁ e₂ h₂ _
    have hn1 : CompareRuns.normalize_snapshot snapSingle1 = [elH2] := rfl
    have hn2 : CompareRuns.normalize_snapshot snapSingle2 = [elH2] := rfl
    rw [hn1] at h₁
    rw [hn2] at h₂
    rw [List.mem_singleton.mp h₁, List.mem_singleton.mp h₂]

theorem evaluate_assertion_fail_not_passed (fs : String → Option JValue) (ya : Bool)
    (yl : String → Except String JValue) (a : JudgeIntent.Assertion)
    (run : JudgeIntent.Run) :
    (JudgeIntent.evaluate_assertion fs ya yl a run).status = "FAIL" →
    (JudgeIntent.evaluate_assertion fs ya yl a run).passed = false := by
  unfold JudgeIntent.evaluate_assertion
  split
  · intro h
    simp [JudgeIntent.mkResult] at h
  · intro h
    repeat' split at h
    all_goals (try simp_all [JudgeIntent.mkResult])
    all_goals (repeat' split at h)
    all_goals simp_all [JudgeIntent.mkResult]

/-- C1 (amended): the verdict is `ERROR` iff any evaluated assertion — of
ANY severity, warn included — has status `ERROR`; otherwise `FAIL` iff any
fail-severity assertion has status `FAIL`; otherwise `PASS`; and
`ready_to_submit` holds iff the verdict is `PASS`.  (Contrary to the claim,
an `ERROR` on a warn-severity assertion alone does force the `ERROR`
verdict: the judge's error list is not filtered by severity.) -/
theorem C1_judge_verdict_amended (fs : String → Option JValue) (ya : Bool)
    (yl : String → Except String JValue) (manifest : JudgeIntent.JManifest)
    (run : JudgeIntent.Run) :
    (JudgeIntent.judge fs ya yl manifest run).verdict
      = (if (JudgeIntent.judge fs ya yl manifest run).assertions.any
            (fun r => r.status == "ERROR") then "ERROR"
        else if (JudgeIntent.judge fs ya yl manifest run).assertions.any
            (fun r => r.severity == "fail" && r.status == "FAIL") then "FAIL"
        else "PASS")
    ∧ (JudgeIntent.judge fs ya yl manifest run).ready_to_submit
      = ((JudgeIntent.judge fs ya yl manifest run).verdict == "PASS") := by
  unfold JudgeIntent.judge
  dsimp only
  set evaluated :=
    ((manifest.assertions ++ manifest.guards).map fun a =>
      JudgeIntent.evaluate_assertion fs ya yl a run)
    ++ run.dslAssertions.map JudgeIntent.dslEval
  have hinv : ∀ r ∈ evaluated, r.status = "FAIL" → r.passed = false := by
    intro r hr
    rcases List.mem_append.mp hr with hmap | hdsl
    · obtain ⟨a, _, rfl⟩ := List.mem_map.mp hmap
      exact evaluate_assertion_fail_not_passed fs ya yl a run
    · obtain ⟨d, _, rfl⟩ := List.mem_map.mp hdsl
      intro h
      by_cases hd : d.passed = true <;> simp_all [JudgeIntent.dslEval]
  have hpt : ∀ r ∈ evaluated,
      (!r.passed && r.status == "FAIL" && r.severity == "fail")
        = (r.severity == "fail" && r.status == "FAIL") := by
    intro r hr
    by_cases hs : r.status = "FAIL"
    · have hp := hinv r hr hs
      rw [hp, hs]
      cases hsev : (r.severity == "fail") <;> simp
    · have hs' : (r.status == "FAIL") = false := beq_eq_false_iff_ne.mpr hs
      rw [hs']
      simp
  rw [filter_isEmpty_eq_not_any, filter_isEmpty_eq_not_any, Bool.not_not, Bool.not_not,
    list_any_congr_of_mem hpt]
  by_cases he : evaluated.any (fun r => r.status == "ERROR") = true <;>
    by_cases hf : evaluated.any (fun r => r.severity == "fail" && r.status == "FAIL") = true <;>
    simp [he, hf]

/-- C1 (counterexample): a manifest holding a single warn-severity assertion
of unknown type evaluates to one warn-severity `ERROR`; the code's verdict
is `ERROR` (with `ready_to_submit = false`), while the claim's
fail-severity-filtered precedence yields `PASS` — so a warn-severity
`ERROR` alone does force the overall `ERROR` verdict. -/
theorem C1_counterexample :
    (JudgeIntent.judge fsEmpty true ylStub manifestWarnOnly runDup).verdict = "ERROR"
    ∧ specVerdictC1 (JudgeIntent.judge fsEmpty true ylStub manifestWarnOnly runDup).assertions
      = "PASS"
    ∧ (JudgeIntent.judge fsEmpty true ylStub manifestWarnOnly runDup).assertions.all
      (fun r => r.severity == "warn") = true
    ∧ (JudgeIntent.judge fsEmpty true ylStub manifestWarnOnly runDup).ready_to_submit
      = false := by
  refine ⟨by decide, by decide, by decide, by decide⟩
